import Mathlib

set_option linter.unusedVariables false

/-!
Verification of the deployment orchestrator of `ocs_ci` (deployment.py) against
its natural-language specification.  The Python source is shallowly embedded:
stateful helpers become explicit state passing over a cluster-context registry,
remote observations become explicit parameters, and side effects are recorded
as action traces.  Exceptions are modelled with `Except`.
-/

namespace OcsCI

/-- Python's `in` operator on strings: the characters of `needle` occur
contiguously inside `haystack`.  Used throughout the source for name and
error-message matching. -/
def strContains (haystack needle : String) : Bool :=
  decide (needle.toList <:+: haystack.toList)

/-- Python truthiness of an optional string (`config.DEPLOYMENT.get(...)`
returns `None` when the key is absent; an empty string is also falsy). -/
def pyTruthyStr : Option String → Bool
  | none => false
  | some s => s ≠ ""

/-- The exception classes of `ocs_ci.ocs.exceptions` raised by the embedded
fragment of deployment.py. -/
inductive DeployExc where
  | podNotCreated (msg : String)
  | rbdSideCarContainer (msg : String)
  | resourceWrongStatus (resource expected got : String)
  | rdrDeployment (msg : String)
  | assertionFailed
  | timeoutExpired (msg : String)
  | unsupportedFeature (msg : String)
deriving Repr, DecidableEq

/-- Modelled from the spec: the Cluster Context Registry of
`ocs_ci.framework.config` (its module is not under src/; only its callers are).
Per spec section 4.1 it keeps an ordered collection of clusters together with a
mutable current index; `switch_ctx i` re-points the current index at `i` and
`switch_acm_ctx` re-points it at the ACM hub's index.  No cluster object is
copied or destroyed by a switch. -/
structure CtxRegistry where
  current : Nat
  acmIndex : Nat
deriving Repr, DecidableEq

/-- `config.switch_ctx(i)`: pointer reassignment of the current index. -/
def switch_ctx (reg : CtxRegistry) (i : Nat) : CtxRegistry :=
  { reg with current := i }

/-- `config.switch_acm_ctx()`: switch the current index to the ACM hub index. -/
def switch_acm_ctx (reg : CtxRegistry) : CtxRegistry :=
  { reg with current := reg.acmIndex }

/-- One non-ACM managed cluster as seen by `RBDDRDeployOps`: its name, its
index in the context registry, the observed count of `rook-ceph-rbd-mirror`
pods, and the sidecar container count the CSI-provisioner query reports on the
i-th poll (1-indexed). -/
structure RemoteCluster where
  clusterName : String
  multiclusterIndex : Nat
  rbdMirrorPodCount : Nat
  csiContainerObs : Nat → Nat

/-- The `while timeout:` loop of `RBDDRDeployOps.validate_csi_sidecar`
(deployment.py): `timeout` starts at 10; every iteration first runs the pod
query, then on a count mismatch sleeps 2 seconds and decrements `timeout`,
while on a match it breaks out with `timeout` untouched.  Arguments: remaining
`timeout` budget, polls issued so far, seconds slept so far; returns the final
values of all three. -/
def csiSidecarLoop (expected : Nat) (obs : Nat → Nat) :
    Nat → Nat → Nat → Nat × Nat × Nat
  | 0, polls, slept => (0, polls, slept)
  | t + 1, polls, slept =>
      if expected ≠ obs (polls + 1) then
        csiSidecarLoop expected obs t (polls + 1) (slept + 2)
      else
        (t + 1, polls + 1, slept)

/-- `RBDDRDeployOps.validate_csi_sidecar`: runs the polling loop and raises
`RBDSideCarContainerException` exactly when the loop exhausted its budget
(`if not timeout:`).  `expected` is `constants.RBD_SIDECAR_COUNT`.  Returns the
outcome together with the number of polls issued and the seconds slept. -/
def validate_csi_sidecar (expected : Nat) (obs : Nat → Nat) :
    Except DeployExc Unit × Nat × Nat :=
  let r := csiSidecarLoop expected obs 10 0 0
  (if r.1 = 0 then
     .error (.rbdSideCarContainer "RBD Sidecar container count mismatch")
   else .ok (), r.2)

/-- The RBD-mirror-pod fan-out loop of `RBDDRDeployOps.configure_mirror_peer`
(deployment.py lines 1710-1718): for every non-ACM cluster, switch the registry
to that cluster, check the `app=rook-ceph-rbd-mirror` pod count (raising
`PodNotCreated` when it is zero) and run `validate_csi_sidecar`; an exception
propagates immediately with the registry left wherever it was. -/
def mirrorPodLoop (expected : Nat) :
    List RemoteCluster → CtxRegistry → Except DeployExc Unit × CtxRegistry
  | [], reg => (.ok (), reg)
  | c :: rest, reg =>
      let reg2 := switch_ctx reg c.multiclusterIndex
      if c.rbdMirrorPodCount = 0 then
        (.error (.podNotCreated
          ("RBD mirror pod not found on cluster: " ++ c.clusterName)), reg2)
      else
        match (validate_csi_sidecar expected c.csiContainerObs).1 with
        | .error e => (.error e, reg2)
        | .ok _ => mirrorPodLoop expected rest reg2

/-- The validation tail of `RBDDRDeployOps.configure_mirror_peer`: the fan-out
loop over non-ACM clusters followed by `config.switch_acm_ctx()` — the switch
back runs on the fall-through path only, it is not in a `finally` block. -/
def configure_mirror_peer_validation (expected : Nat)
    (clusters : List RemoteCluster) (reg : CtxRegistry) :
    Except DeployExc Unit × CtxRegistry :=
  match mirrorPodLoop expected clusters reg with
  | (.ok _, reg2) => (.ok (), switch_acm_ctx reg2)
  | (.error e, reg2) => (.error e, reg2)

/-- One participating cluster as seen by `validate_mirror_peer`: registry
index, and the name and phase of its first `token-exchange-agent` pod. -/
structure PeerCluster where
  clusterName : String
  multiclusterIndex : Nat
  tokenAgentPodName : String
  tokenAgentPodPhase : String
deriving Repr, DecidableEq

/-- The per-cluster loop of `RBDDRDeployOps.validate_mirror_peer`: clusters
whose index equals the ACM index are skipped; otherwise the context is switched
and the token-exchange-agent pod phase is read.  When the phase is not
`Running` the source evaluates `ResourceWrongStatusException(pod_name, ...)`
as a bare expression and discards it — there is no `raise` — so the loop always
continues; we record each exception value so constructed in the returned
list. -/
def tokenAgentLoop :
    List PeerCluster → CtxRegistry → List DeployExc → CtxRegistry × List DeployExc
  | [], reg, built => (reg, built)
  | c :: rest, reg, built =>
      if c.multiclusterIndex = reg.acmIndex then
        tokenAgentLoop rest reg built
      else
        let reg2 := switch_ctx reg c.multiclusterIndex
        if c.tokenAgentPodPhase ≠ "Running" then
          tokenAgentLoop rest reg2
            (built ++ [.resourceWrongStatus c.tokenAgentPodName "Running"
                        c.tokenAgentPodPhase])
        else
          tokenAgentLoop rest reg2 built

/-- `RBDDRDeployOps.validate_mirror_peer`: first waits for the MirrorPeer to
reach phase `ExchangedSecret` within 1200 s (re-raising the wrong-status error
when the poll fails — `peerPhaseReached` is the outcome of that external
`wait_for_phase` call); then runs the token-exchange-agent loop over all
participating clusters and finally switches back to the ACM context.  Returns
the outcome, the final registry, and the exception values that were
constructed but never raised inside the loop. -/
def validate_mirror_peer (peerPhaseReached : Bool) (clusters : List PeerCluster)
    (reg : CtxRegistry) : Except DeployExc Unit × CtxRegistry × List DeployExc :=
  if peerPhaseReached then
    let r := tokenAgentLoop clusters reg []
    (.ok (), switch_acm_ctx r.1, r.2)
  else
    (.error (.resourceWrongStatus "MirrorPeer" "ExchangedSecret" "timeout"),
      reg, [])

/-- The DEPLOYMENT-section configuration keys read by `Deployment.subscribe_ocs`
(`config.DEPLOYMENT.get(...)`; absent keys give `none`). -/
structure SubscribeConf where
  subscription_plan_approval : Option String
  ocs_csv_channel : Option String
  stage : Bool
  live_deployment : Bool
  live_content_source : Option String
deriving Repr, DecidableEq

/-- The subscription manifest document built by `subscribe_ocs` from the
subscription template: only the fields the method mutates are tracked. -/
structure SubscriptionManifest where
  installPlanApproval : Option String
  channel : String
  source : Option String
deriving Repr, DecidableEq

/-- External facts `subscribe_ocs` consumes: the platform, the default channel
read from the package manifest, the operator name chosen from the OCS version,
the template manifest, and the catalog-source name constants. -/
structure SubscribeEnv where
  platformIsIBMCloud : Bool
  ocsVersionGe49 : Bool
  defaultChannel : String
  odfOperatorName : String
  ocsOperatorName : String
  baseManifest : SubscriptionManifest
  operatorSourceName : String
  defaultLiveContentSource : String
deriving Repr, DecidableEq

/-- The externally observable steps `subscribe_ocs` performs, in order. -/
inductive SubscribeStep where
  | linkSAAndSecret
  | waitPackageManifest (name : String)
  | createSubscription (m : SubscriptionManifest)
  | waitSubscription (pattern : String)
  | approveInstallPlan
  | csvWaitPhase (phase : String) (timeout : Nat)
  | waitCSV (pattern : String)
  | sleep (secs : Nat)
deriving Repr, DecidableEq

/-- The operator name `subscribe_ocs` targets: `odf-operator` from OCS 4.9 on,
`ocs-operator` before. -/
def subscribeOperatorName (env : SubscribeEnv) : String :=
  if env.ocsVersionGe49 then env.odfOperatorName else env.ocsOperatorName

/-- The subscription manifest after the mutations of `subscribe_ocs`:
`installPlanApproval` is set only when `subscription_plan_approval` is truthy,
the channel is the custom channel when truthy and the package-manifest default
otherwise, and the catalog source is overridden by the stage and then the
live-deployment branches. -/
def buildSubscriptionManifest (conf : SubscribeConf) (env : SubscribeEnv) :
    SubscriptionManifest :=
  let m := env.baseManifest
  let m := if pyTruthyStr conf.subscription_plan_approval then
      { m with installPlanApproval := conf.subscription_plan_approval } else m
  let m := if pyTruthyStr conf.ocs_csv_channel then
      { m with channel := conf.ocs_csv_channel.getD "" }
    else
      { m with channel := env.defaultChannel }
  let m := if conf.stage then { m with source := some env.operatorSourceName } else m
  let liveSource := conf.live_content_source.getD env.defaultLiveContentSource
  let m := if conf.live_deployment then { m with source := some liveSource } else m
  m

/-- The step trace of `Deployment.subscribe_ocs` up to the manual-approval
branch: IBM-Cloud secret linking, package-manifest wait, subscription creation
and the wait for the subscription resource to appear. -/
def subscribeOcsHead (conf : SubscribeConf) (env : SubscribeEnv) :
    List SubscribeStep :=
  (if env.platformIsIBMCloud && !conf.live_deployment then
     [SubscribeStep.linkSAAndSecret] else [])
  ++ [SubscribeStep.waitPackageManifest (subscribeOperatorName env),
      SubscribeStep.createSubscription (buildSubscriptionManifest conf env),
      SubscribeStep.waitSubscription (subscribeOperatorName env)]

/-- `Deployment.subscribe_ocs` as its ordered step trace: after the head, the
`subscription_plan_approval == "Manual"` comparison decides whether the pending
install plan is found and approved and the CSV awaited in phase `Installing`
(timeout 60) before `wait_for_csv`; the method ends with a 30-second sleep. -/
def subscribe_ocs (conf : SubscribeConf) (env : SubscribeEnv) :
    List SubscribeStep :=
  subscribeOcsHead conf env
  ++ (if conf.subscription_plan_approval = some "Manual" then
        [SubscribeStep.approveInstallPlan,
         SubscribeStep.csvWaitPhase "Installing" 60]
      else [])
  ++ [SubscribeStep.waitCSV (subscribeOperatorName env), SubscribeStep.sleep 30]

/-- The resource requests/limits attached to the device set: untouched
template values, the AWS-i3 limits preset, or the explicit `None`/`None`
zero-out of the lower-instance-requirements override. -/
inductive DSResources where
  | fromTemplate
  | awsI3Preset
  | explicitNone
deriving Repr, DecidableEq

/-- The cluster-level `spec.resources` block: template values, the wholesale
zero-out written by `allow_lower_instance_requirements`, or the mds/noobaa
preset written for local storage on AWS. -/
inductive ClusterResources where
  | fromTemplate
  | loweredNone
  | awsLsoPreset
deriving Repr, DecidableEq

/-- `spec.storageDeviceSets[0]` of the StorageCluster document — the fields
`deploy_ocs_via_operator` mutates. -/
structure DeviceSetSpec where
  dsName : String
  count : Nat
  replica : Nat
  portable : Bool
  storageClassName : Option String
  storageRequest : Option String
  resources : DSResources
deriving Repr, DecidableEq

/-- The StorageCluster custom-resource spec composed by
`deploy_ocs_via_operator`, restricted to the keys the method writes.  `Option`
fields are `none` when the key is absent from the document. -/
structure StorageClusterSpec where
  arbiterEnable : Option Bool
  arbiterLocation : Option String
  flexibleScaling : Option Bool
  deviceSet : DeviceSetSpec
  manageNodes : Option Bool
  monDataDirHostPath : Option String
  localDevicesAnnotation : Bool
  clusterResources : ClusterResources
  hostNetwork : Option Bool
  encryptionEnabled : Bool
deriving Repr, DecidableEq

/-- The configuration flags `deploy_ocs_via_operator` reads while composing the
StorageCluster spec.  Version comparisons (`version.get_semantic_ocs_version`)
and platform lookups are snapshot as booleans/strings; `zone_num` is
`get_az_count()`; `pvSizeList` is `helpers.get_pv_size` on bare metal. -/
structure OcsPlan where
  arbiter_deployment : Bool
  local_storage : Bool
  ocsVerGe45 : Bool
  ocsVerGe46 : Bool
  ocsVerGe47 : Bool
  ocpVerGe46 : Bool
  zone_num : Nat
  platform : String
  device_size : Nat
  lsoTypeIsAwsEbs : Bool
  workerInstanceIsAwsI3 : Bool
  local_storage_storagedeviceset_count : Option Nat
  allow_lower_instance_requirements : Bool
  encryption_at_rest : Bool
  host_network : Bool
  arbiterLocationName : String
  pvSizeList : List Nat
  defaultStorageClass : Option String
  defaultStorageClassLSO : String

/-- The StorageCluster composition slice of `Deployment.deploy_ocs_via_operator`
(deployment.py lines 809-977), applied to the loaded template `base` in source
order: arbiter overlay; flexible-scaling overlay (LSO and version >= 4.7 and
fewer than 3 zones and not arbiter); data-PVC size (bare metal takes the
smallest discovered PV — `storageRequest := none` models the source raising on
an empty PV list); default storage class; LSO device-set tweaks; resource
overrides; host network; IBM-Cloud manageNodes; encryption at rest (raising
`UnsupportedFeatureError` below OCS 4.6).  None of the remaining overlays in
the source (monitoring patches, multus network, cephConfig) touch these
fields. -/
def arbiterOverlay (plan : OcsPlan) (s : StorageClusterSpec) : StorageClusterSpec :=
  if plan.arbiter_deployment then
    { s with arbiterEnable := some true,
             arbiterLocation := some plan.arbiterLocationName,
             deviceSet := { s.deviceSet with replica := 4 } }
  else s

/-- The guard of the flexible-scaling branch (deployment.py lines 826-831):
local storage, OCS version at least 4.7, fewer than 3 zones, and not an
arbiter deployment. -/
def flexibleScalingCond (plan : OcsPlan) : Bool :=
  plan.local_storage && plan.ocsVerGe47 && decide (plan.zone_num < 3)
    && !plan.arbiter_deployment

def flexibleScalingOverlay (plan : OcsPlan) (s : StorageClusterSpec) :
    StorageClusterSpec :=
  if flexibleScalingCond plan then
    { s with flexibleScaling := some true,
             deviceSet := { s.deviceSet with count := 3, replica := 1 } }
  else s

def deviceSizeOverlay (plan : OcsPlan) (s : StorageClusterSpec) :
    StorageClusterSpec :=
  if plan.platform = "baremetal" then
    let sorted := plan.pvSizeList.insertionSort (fun a b => a ≤ b)
    { s with deviceSet :=
        { s.deviceSet with storageRequest := sorted.head?.map toString } }
  else
    { s with deviceSet :=
        { s.deviceSet with storageRequest := some (toString plan.device_size ++ "Gi") } }

def storageClassOverlay (plan : OcsPlan) (s : StorageClusterSpec) :
    StorageClusterSpec :=
  if pyTruthyStr plan.defaultStorageClass then
    { s with deviceSet :=
        { s.deviceSet with storageClassName := plan.defaultStorageClass } }
  else s

def lsoOverlay (plan : OcsPlan) (s : StorageClusterSpec) : StorageClusterSpec :=
  if plan.local_storage then
    let ds0 := s.deviceSet
    let ds := { ds0 with dsName := "ocs-deviceset-localblock", portable := false, storageClassName := some plan.defaultStorageClassLSO }
    let ds := if plan.platform = "aws" && !plan.lsoTypeIsAwsEbs then
        { ds with count := 2 } else ds
    let ds := if plan.ocsVerGe45 && plan.workerInstanceIsAwsI3 then
        { ds with resources := DSResources.awsI3Preset } else ds
    let ds := match plan.local_storage_storagedeviceset_count with
      | some n => { ds with count := n }
      | none => ds
    { s with manageNodes := some false,
             monDataDirHostPath := some "/var/lib/rook",
             localDevicesAnnotation := plan.ocpVerGe46 && plan.ocsVerGe46,
             deviceSet := ds }
  else s

def resourcesOverlay (plan : OcsPlan) (s : StorageClusterSpec) :
    StorageClusterSpec :=
  if plan.allow_lower_instance_requirements then
    { s with deviceSet := { s.deviceSet with resources := DSResources.explicitNone },
             clusterResources := ClusterResources.loweredNone }
  else if plan.local_storage && plan.platform = "aws" then
    { s with clusterResources := ClusterResources.awsLsoPreset }
  else s

def hostNetworkOverlay (plan : OcsPlan) (s : StorageClusterSpec) :
    StorageClusterSpec :=
  if plan.host_network then { s with hostNetwork := some true } else s

def ibmManageNodesOverlay (plan : OcsPlan) (s : StorageClusterSpec) :
    StorageClusterSpec :=
  if plan.platform = "ibm_cloud" then { s with manageNodes := some false } else s

def encryptionOverlay (plan : OcsPlan) (s : StorageClusterSpec) :
    Except DeployExc StorageClusterSpec :=
  if plan.encryption_at_rest then
    if plan.ocsVerGe46 then .ok { s with encryptionEnabled := true }
    else .error (.unsupportedFeature
      "Encryption at REST can be enabled only on OCS >= 4.6!")
  else .ok s

def composeStorageCluster (plan : OcsPlan) (base : StorageClusterSpec) :
    Except DeployExc StorageClusterSpec :=
  encryptionOverlay plan
    (ibmManageNodesOverlay plan
      (hostNetworkOverlay plan
        (resourcesOverlay plan
          (lsoOverlay plan
            (storageClassOverlay plan
              (deviceSizeOverlay plan
                (flexibleScalingOverlay plan
                  (arbiterOverlay plan base))))))))

/-- Side effects of `Deployment.deploy_ocs` recorded as a trace.  Resource
creation is distinguished from patches, queries and waits. -/
inductive OcsAction where
  | setRegistryManaged
  | loadClusterInfo
  | prepareDisconnectedMirroring
  | deployExternalMode
  | deployViaOperator
  | waitPodsRunning (selector : String) (count : Nat)
  | validateClusterOnPvc
  | validatePdbCreation
  | setupCephToolbox
  | cephfsValidation
  | monitoringSetup
  | telemeterConfigmap
  | registryBackendToOcs
  | enableConsolePlugin
  | cephHealthCheck (tries : Nat)
  | updateNtpComputeNodes
  | patchDefaultScNonDefault
deriving Repr, DecidableEq

/-- Whether an action creates cluster resources (the operator / external-mode
deploy paths create catalog sources, subscriptions, secrets and the
StorageCluster resource; the toolbox and configmap steps create resources). -/
def OcsAction.createsResource : OcsAction → Bool
  | .deployExternalMode => true
  | .deployViaOperator => true
  | .setupCephToolbox => true
  | .telemeterConfigmap => true
  | .monitoringSetup => true
  | _ => false

/-- The environment `Deployment.deploy_ocs` observes: whether the CephCluster
get returns any item, the deployment-mode flags, and the outcomes of the two
possible `ceph_health_check` calls (`firstHealth = none` means the tries=30
check found the cluster healthy, `some msg` that it raised
`CephHealthException(msg)`; `retryHealthOk` is the result of the tries=60
re-check). -/
structure OcsEnv where
  cephClusterItems : Nat
  external_mode : Bool
  mcg_only_deployment : Bool
  disconnected : Bool
  disconnectedSkipMirroring : Bool
  monitoring_enabled : Bool
  persistent_monitoring : Bool
  telemeter_server_url : Option String
  disable_cephfs : Bool
  ocsVerGe49 : Bool
  platform : String
  firstHealth : Option String
  retryHealthOk : Bool
deriving Repr, DecidableEq

/-- The final cluster-health verification of `Deployment.deploy_ocs`
(deployment.py lines 1213-1226): `ceph_health_check(tries=30)` inside a
`try`; on `CephHealthException` the message is logged as a warning, and only
when it contains `"clock skew detected"` does the method resynchronize NTP on
the compute nodes (vSphere platform only) and assert one `tries=60` re-check;
a `CephHealthException` without the clock-skew signature falls out of the
`except` block without re-raising. -/
def cephHealthVerification (env : OcsEnv) : Except DeployExc Unit × List OcsAction :=
  match env.firstHealth with
  | none => (.ok (), [.cephHealthCheck 30])
  | some msg =>
      if strContains msg "clock skew detected" then
        let acts := [OcsAction.cephHealthCheck 30]
          ++ (if env.platform = "vsphere" then [OcsAction.updateNtpComputeNodes] else [])
          ++ [OcsAction.cephHealthCheck 60]
        if env.retryHealthOk then (.ok (), acts) else (.error .assertionFailed, acts)
      else
        (.ok (), [.cephHealthCheck 30])

/-- The operator-branch body of `deploy_ocs` after `deploy_ocs_via_operator`:
pod waits, PVC/PDB validation, toolbox creation and the soft CephFS check.
The waits are recorded as actions; their failure modes (assertion on timeout)
are outside the claims under verification. -/
def deployOcsOperatorBody (env : OcsEnv) : List OcsAction :=
  [OcsAction.deployViaOperator]
  ++ (if env.mcg_only_deployment then [] else
      [OcsAction.waitPodsRunning "app=rook-ceph-mon" 3,
       OcsAction.waitPodsRunning "app=rook-ceph-mgr" 1,
       OcsAction.waitPodsRunning "app=rook-ceph-osd" 3,
       OcsAction.validateClusterOnPvc,
       OcsAction.validatePdbCreation]
      ++ (if env.ocsVerGe49 then [OcsAction.waitPodsRunning "app=odf-console" 1] else [])
      ++ [OcsAction.setupCephToolbox,
          OcsAction.waitPodsRunning "app=rook-ceph-tools" 1]
      ++ (if env.disable_cephfs then [] else [OcsAction.cephfsValidation]))

/-- The monitoring / registry / console tail of `deploy_ocs` that precedes the
health verification. -/
def deployOcsTail (env : OcsEnv) : List OcsAction :=
  (if env.monitoring_enabled && env.persistent_monitoring then
     [OcsAction.monitoringSetup]
   else if env.monitoring_enabled && env.telemeter_server_url.isSome then
     [OcsAction.telemeterConfigmap]
   else [])
  ++ (if env.disable_cephfs then [] else [OcsAction.registryBackendToOcs])
  ++ [OcsAction.enableConsolePlugin]

/-- `Deployment.deploy_ocs` (deployment.py lines 1108-1229): registry set to
managed state, then the idempotency check — a CephCluster get returning any
item logs "OCS cluster already exists" and returns at once.  Otherwise the
method loads cluster info, optionally prepares disconnected mirroring, runs
the external-mode or operator branch (the mcg-only sub-path returns right
after its checks), the monitoring/registry/console tail, the health
verification and the default-storage-class patch. -/
def deploy_ocs (env : OcsEnv) : Except DeployExc Unit × List OcsAction :=
  let pre := [OcsAction.setRegistryManaged]
  if env.cephClusterItems ≠ 0 then
    (.ok (), pre)
  else
    let pre := pre ++ [OcsAction.loadClusterInfo]
      ++ (if env.disconnected && !env.disconnectedSkipMirroring then
            [OcsAction.prepareDisconnectedMirroring] else [])
    if env.external_mode then
      let acts := pre ++ [OcsAction.deployExternalMode] ++ deployOcsTail env
      match cephHealthVerification env with
      | (.ok _, h) => (.ok (), acts ++ h ++ [OcsAction.patchDefaultScNonDefault])
      | (.error e, h) => (.error e, acts ++ h)
    else if env.mcg_only_deployment then
      (.ok (), pre ++ deployOcsOperatorBody env)
    else
      let acts := pre ++ deployOcsOperatorBody env ++ deployOcsTail env
      match cephHealthVerification env with
      | (.ok _, h) => (.ok (), acts ++ h ++ [OcsAction.patchDefaultScNonDefault])
      | (.error e, h) => (.error e, acts ++ h)

/-- One entry of `spec.drClusterSet` in the DRPolicy hub document. -/
structure DRClusterEntry where
  name : String
  s3ProfileName : String
deriving Repr, DecidableEq

/-- The per-entry body of the `deploy_dr_policy` loop: write the cluster name
into the entry, then scan all S3 profiles and record every profile whose name
contains the cluster name as a substring (the last match wins). -/
def assignProfile (clusterName : String) (profiles : List String)
    (e : DRClusterEntry) : DRClusterEntry :=
  profiles.foldl
    (fun acc p => if strContains p clusterName then { acc with s3ProfileName := p } else acc)
    { e with name := clusterName }

/-- The zip loop of `MultiClusterDROperatorsDeploy.deploy_dr_policy`
(deployment.py lines 1958-1974): pairs of (non-ACM cluster name, template
drClusterSet entry) are processed left to right; after assigning profiles, a
falsy `s3ProfileName` (the template's empty default) raises
`RDRDeploymentException` immediately. -/
def fillDrClusterSet (profiles : List String) :
    List (String × DRClusterEntry) → Except DeployExc (List DRClusterEntry)
  | [] => .ok []
  | (cname, e) :: rest =>
      let e2 := assignProfile cname profiles e
      if e2.s3ProfileName = "" then
        .error (.rdrDeployment
          ("Not able to find s3profile for cluster " ++ cname
            ++ ",Regional DR deployment will not succeed"))
      else
        match fillDrClusterSet profiles rest with
        | .error err => .error err
        | .ok tail => .ok (e2 :: tail)

/-- Side effects of `deploy_dr_policy` after the entry loop. -/
inductive DRAction where
  | dumpPolicyYaml
  | createDrPolicy
  | waitPolicySucceeded
deriving Repr, DecidableEq

/-- `MultiClusterDROperatorsDeploy.deploy_dr_policy`: fill the drClusterSet
entries from the non-ACM cluster names and the hub S3 profiles (raising before
any side effect when a cluster has no matching profile); only then dump the
manifest, issue `oc create` and poll the DRPolicy status until its reason is
`Succeeded` (`statusSucceeds` is the outcome of that poll, a timeout raises
`TimeoutExpiredError`). -/
def deploy_dr_policy (clusterNames : List String)
    (templateEntries : List DRClusterEntry) (profiles : List String)
    (statusSucceeds : Bool) : Except DeployExc Unit × List DRAction :=
  match fillDrClusterSet profiles (clusterNames.zip templateEntries) with
  | .error e => (.error e, [])
  | .ok _ =>
      let acts := [DRAction.dumpPolicyYaml, DRAction.createDrPolicy,
                   DRAction.waitPolicySucceeded]
      if statusSucceeds then (.ok (), acts)
      else (.error (.timeoutExpired "DR Policy failed to reach Succeeded state"), acts)

/-- The match used by `Deployment.wait_for_subscription` and
`Deployment.wait_for_csv`: Python's `if name_pattern in found_name`, a
substring test, not an equality test. -/
def nameMatches (pattern foundName : String) : Bool :=
  strContains foundName pattern

/-- One sample of the wait loops: scan the listed resource names and return
the first whose metadata name contains the pattern. -/
def findMatchingResource (pattern : String) (items : List String) : Option String :=
  items.find? (nameMatches pattern)

/-- The `TimeoutSampler(300, 10, ...)` loop shared by `wait_for_subscription`
and `wait_for_csv`: resource listings are sampled (the listing observed at
attempt `t` is `samples t`, attempts counted from 1); the wait returns at the
first attempt whose listing has a name containing the pattern, and gives up
when the 30-attempt budget of the sampler is exhausted. -/
def waitForNamedResource (pattern : String) (samples : Nat → List String) :
    Nat → Nat → Option (Nat × String)
  | _, 0 => none
  | attempt, fuel + 1 =>
      match findMatchingResource pattern (samples attempt) with
      | some nm => some (attempt, nm)
      | none => waitForNamedResource pattern samples (attempt + 1) fuel

/-- `Deployment.wait_for_subscription` (deployment.py lines 526-546). -/
def wait_for_subscription (subscriptionName : String)
    (samples : Nat → List String) : Option (Nat × String) :=
  waitForNamedResource subscriptionName samples 1 30

/-- `Deployment.wait_for_csv` (deployment.py lines 548-566); same matching as
`wait_for_subscription`, applied to csv listings. -/
def wait_for_csv (csvName : String) (samples : Nat → List String) :
    Option (Nat × String) :=
  waitForNamedResource csvName samples 1 30

/-- A YAML value as manipulated by `update_config_map_commit`: string and
boolean scalars and block-style mappings (association lists, preserving the
insertion order of the underlying Python dict). -/
inductive YVal where
  | str (v : String)
  | bool (v : Bool)
  | map (kvs : List (String × YVal))
deriving Repr

/-- Code-point lexicographic string comparison, as Python compares `str` keys
when PyYAML sorts mapping keys. -/
def strLeChars : List Char → List Char → Bool
  | [], _ => true
  | _ :: _, [] => false
  | a :: as, b :: bs =>
      if a.toNat < b.toNat then true
      else if b.toNat < a.toNat then false
      else strLeChars as bs

def strLe (a b : String) : Bool := strLeChars a.toList b.toList

/-- PyYAML's `yaml.dump` sorts the keys of every mapping (default
`sort_keys=True`, code-point comparison). -/
def sortPairs (kvs : List (String × YVal)) : List (String × YVal) :=
  kvs.insertionSort (fun a b => strLe a.1 b.1 = true)

mutual
/-- Key-sorting normalization applied to every mapping level of a value, as
`yaml.dump` does before rendering. -/
def sortYVal : YVal → YVal
  | .str v => .str v
  | .bool v => .bool v
  | .map kvs => .map (sortPairs (sortYValPairs kvs))
def sortYValPairs : List (String × YVal) → List (String × YVal)
  | [] => []
  | (k, v) :: rest => (k, sortYVal v) :: sortYValPairs rest
end

/-- `n` spaces of block indentation. -/
def pad (n : Nat) : String := String.mk (List.replicate n ' ')

mutual
/-- Render one `key: value` mapping entry at the given indentation, PyYAML
block style: scalars stay on the key line, a non-empty mapping value starts a
two-space-deeper block, an empty mapping renders inline as `{}`. -/
def renderEntry (ind : Nat) (k : String) : YVal → List String
  | .str v => [pad ind ++ k ++ ": " ++ v]
  | .bool v => [pad ind ++ k ++ ": " ++ (if v then "true" else "false")]
  | .map [] => [pad ind ++ k ++ ": {}"]
  | .map (p :: rest) => (pad ind ++ k ++ ":") :: renderEntries (ind + 2) (p :: rest)
def renderEntries (ind : Nat) : List (String × YVal) → List String
  | [] => []
  | (k, v) :: rest => renderEntry ind k v ++ renderEntries ind rest
end

/-- The dump of a top-level mapping: lines of the fully key-sorted document. -/
def yamlDumpLines (kvs : List (String × YVal)) : List String :=
  renderEntries 0 (sortPairs (sortYValPairs kvs))

/-- Join rendered lines the way a YAML dump does, one trailing newline per
line, at the character level. -/
def joinLinesChars (ls : List (List Char)) : List Char :=
  match ls with
  | [] => []
  | l :: rest => l ++ '\n' :: joinLinesChars rest

/-- The scan behind `replaceAll`, structurally recursive on a fuel bound that
dominates the list length (a replacement consumes at least one character, so
the initial length is enough fuel). -/
def replaceAllFuel (pat repl : List Char) : Nat → List Char → List Char
  | _, [] => []
  | 0, l => l
  | n + 1, c :: rest =>
      if pat.isPrefixOf (c :: rest) = true ∧ pat ≠ [] then
        repl ++ replaceAllFuel pat repl n ((c :: rest).drop pat.length)
      else
        c :: replaceAllFuel pat repl n rest

/-- Python's `str.replace(pat, repl)`: scan left to right, replacing each
non-overlapping occurrence of `pat`. -/
def replaceAll (pat repl l : List Char) : List Char :=
  replaceAllFuel pat repl l.length l

/-- `constants.DR_RAMEN_CONFIG_MANAGER_KEY`. -/
def ramenKey : String := "ramen_manager_config.yaml"

/-- Dictionary lookup on an association-list mapping. -/
def lookupY (kvs : List (String × YVal)) (k : String) : Option YVal :=
  (kvs.find? (fun p => p.1 = k)).map Prod.snd

/-- Python's `dict.pop(k)`: the mapping without key `k`. -/
def removeKeyY (kvs : List (String × YVal)) (k : String) :
    List (String × YVal) :=
  kvs.filter (fun p => p.1 ≠ k)

/-- Python's `dict.update({k: v})` / `d[k] = v`: replace the value in place
when the key exists, append the pair otherwise. -/
def setKeyY (kvs : List (String × YVal)) (k : String) (v : YVal) :
    List (String × YVal) :=
  if (kvs.find? (fun p => p.1 = k)).isSome then
    kvs.map (fun p => if p.1 = k then (k, v) else p)
  else kvs ++ [(k, v)]

/-- The Ramen hub operator ConfigMap as passed to `update_config_map_commit`:
the top-level keys other than `data` and `metadata` (apiVersion, kind, ...),
the `data` mapping (whose `ramen_manager_config.yaml` key holds the embedded
multi-line YAML string) and the `metadata` mapping. -/
structure RamenConfigMap where
  topFields : List (String × YVal)
  dataFields : List (String × YVal)
  metadataFields : List (String × YVal)

/-- The merge performed inside the parsed manager config: the
`drClusterOperator` section gains `deploymentAutomationEnabled: true`; nothing
else in the parsed document is touched. -/
def innerUpdated (inner dco : List (String × YVal)) : List (String × YVal) :=
  setKeyY inner "drClusterOperator"
    (.map (setKeyY dco "deploymentAutomationEnabled" (.bool true)))

/-- The `metadata` section after `update_config_map_commit` pops the
`annotations`, `creationTimestamp`, `resourceVersion` and `uid` keys. -/
def metadataStripped (md : List (String × YVal)) : List (String × YVal) :=
  removeKeyY (removeKeyY (removeKeyY (removeKeyY md "annotations")
    "creationTimestamp") "resourceVersion") "uid"

/-- The document `update_config_map_commit` hands to `yaml.dump`: the original
top-level keys, the `data` mapping with the ramen key popped and re-added as
the parsed-and-merged mapping, and the stripped metadata. -/
def commitDoc (cm : RamenConfigMap) (inner dco : List (String × YVal)) :
    List (String × YVal) :=
  cm.topFields
    ++ [("data", YVal.map (setKeyY (removeKeyY cm.dataFields ramenKey) ramenKey
          (.map (innerUpdated inner dco)))),
        ("metadata", YVal.map (metadataStripped cm.metadataFields))]

/-- `MultiClusterDROperatorsDeploy.update_config_map_commit` (deployment.py
lines 1886-1928): pop the embedded manager-config string out of `data` and
`yaml.safe_load` it (the library call's result is the `inner` argument — the
source then requires a `drClusterOperator` mapping inside, a missing one
raises KeyError, modelled as `none`); set `deploymentAutomationEnabled: true`
in it; merge the parsed mapping back under the same key; drop the four
volatile metadata keys; `yaml.dump` the whole document; finally patch the
serialized text with `str.replace`, turning `ramen_manager_config.yaml:` into
`ramen_manager_config.yaml: |` so the re-parsed document reads the block that
follows as one literal multi-line string again. -/
def update_config_map_commit (cm : RamenConfigMap)
    (inner : List (String × YVal)) : Option (List Char) :=
  match lookupY inner "drClusterOperator" with
  | some (.map dco) =>
      let serialized :=
        joinLinesChars ((yamlDumpLines (commitDoc cm inner dco)).map String.toList)
      some (replaceAll (ramenKey ++ ":").toList (ramenKey ++ ": |").toList serialized)
  | _ => none

/-- Keys of an association-list mapping are pairwise distinct (a Python dict
invariant). -/
def keysNodup (kvs : List (String × YVal)) : Prop := (kvs.map Prod.fst).Nodup

/-- A bundle: an overlay preserves the three fields the C4 invariant is
about. -/
def PreservesTopology (f : StorageClusterSpec → StorageClusterSpec) : Prop :=
  ∀ s, (f s).flexibleScaling = s.flexibleScaling
    ∧ (f s).arbiterEnable = s.arbiterEnable
    ∧ (f s).deviceSet.replica = s.deviceSet.replica

/-! ### Theorems -/

/-- One mismatching poll of the sidecar loop: query, sleep 2, decrement. -/
theorem csiSidecarLoop_step_miss (expected : Nat) (obs : Nat → Nat)
    (t polls slept : Nat) (h : obs (polls + 1) ≠ expected) :
    csiSidecarLoop expected obs (t + 1) polls slept
      = csiSidecarLoop expected obs t (polls + 1) (slept + 2) := by
  rw [csiSidecarLoop, if_pos (Ne.symm h)]

/-- One matching poll of the sidecar loop: break with the budget untouched. -/
theorem csiSidecarLoop_step_hit (expected : Nat) (obs : Nat → Nat)
    (t polls slept : Nat) (h : obs (polls + 1) = expected) :
    csiSidecarLoop expected obs (t + 1) polls slept = (t + 1, polls + 1, slept) := by
  rw [csiSidecarLoop, if_neg]
  simp [h]

/-- C9: when the observed CSI-provisioner container count differs from the
expected count on each of the first 9 polls (sleeping 2 seconds after each
mismatch) and equals it on the 10th, `validate_csi_sidecar` succeeds exactly
at iteration 10 — 10 polls, 18 seconds slept, no exception; and only when all
10 polls mismatch does it raise `RBDSideCarContainerException`. -/
theorem validate_csi_sidecar_tenth_poll (expected : Nat) (obs obsBad : Nat → Nat)
    (hmiss : ∀ i, 1 ≤ i → i ≤ 9 → obs i ≠ expected)
    (hhit : obs 10 = expected)
    (hbad : ∀ i, 1 ≤ i → i ≤ 10 → obsBad i ≠ expected) :
    validate_csi_sidecar expected obs = (.ok (), 10, 18)
    ∧ validate_csi_sidecar expected obsBad
        = (.error (.rbdSideCarContainer "RBD Sidecar container count mismatch"), 10, 20) := by
  constructor
  · have e1 : csiSidecarLoop expected obs 10 0 0 = (1, 10, 18) := by
      rw [show (10 : Nat) = 9 + 1 from rfl,
          csiSidecarLoop_step_miss _ _ _ _ _ (by norm_num [hmiss 1]),
          csiSidecarLoop_step_miss _ _ _ _ _ (by norm_num [hmiss 2]),
          csiSidecarLoop_step_miss _ _ _ _ _ (by norm_num [hmiss 3]),
          csiSidecarLoop_step_miss _ _ _ _ _ (by norm_num [hmiss 4]),
          csiSidecarLoop_step_miss _ _ _ _ _ (by norm_num [hmiss 5]),
          csiSidecarLoop_step_miss _ _ _ _ _ (by norm_num [hmiss 6]),
          csiSidecarLoop_step_miss _ _ _ _ _ (by norm_num [hmiss 7]),
          csiSidecarLoop_step_miss _ _ _ _ _ (by norm_num [hmiss 8]),
          csiSidecarLoop_step_miss _ _ _ _ _ (by norm_num [hmiss 9]),
          csiSidecarLoop_step_hit _ _ _ _ _ (by norm_num [hhit])]
    simp [validate_csi_sidecar, e1]
  · have e2 : csiSidecarLoop expected obsBad 10 0 0 = (0, 10, 20) := by
      rw [show (10 : Nat) = 9 + 1 from rfl,
          csiSidecarLoop_step_miss _ _ _ _ _ (by norm_num [hbad 1]),
          csiSidecarLoop_step_miss _ _ _ _ _ (by norm_num [hbad 2]),
          csiSidecarLoop_step_miss _ _ _ _ _ (by norm_num [hbad 3]),
          csiSidecarLoop_step_miss _ _ _ _ _ (by norm_num [hbad 4]),
          csiSidecarLoop_step_miss _ _ _ _ _ (by norm_num [hbad 5]),
          csiSidecarLoop_step_miss _ _ _ _ _ (by norm_num [hbad 6]),
          csiSidecarLoop_step_miss _ _ _ _ _ (by norm_num [hbad 7]),
          csiSidecarLoop_step_miss _ _ _ _ _ (by norm_num [hbad 8]),
          csiSidecarLoop_step_miss _ _ _ _ _ (by norm_num [hbad 9]),
          csiSidecarLoop_step_miss _ _ _ _ _ (by norm_num [hbad 10])]
      rfl
    simp [validate_csi_sidecar, e2]

/-- C9 witness: the spec's scenario — expected count 8, observed 6 on polls
1-9 and 8 on poll 10 (success at iteration 10); observed 6 on all ten polls
(exception). -/
theorem validate_csi_sidecar_tenth_poll_witness :
    validate_csi_sidecar 8 (fun i => if i ≤ 9 then 6 else 8) = (.ok (), 10, 18)
    ∧ validate_csi_sidecar 8 (fun _ => 6)
        = (.error (.rbdSideCarContainer "RBD Sidecar container count mismatch"), 10, 20) :=
  validate_csi_sidecar_tenth_poll 8 _ _
    (fun i h1 h2 => by rw [if_pos h2]; decide)
    (by norm_num)
    (fun i h1 h2 => by decide)

/-- The fan-out loop never changes the ACM index stored in the registry. -/
theorem mirrorPodLoop_acmIndex (expected : Nat) :
    ∀ (cs : List RemoteCluster) (reg : CtxRegistry),
      ((mirrorPodLoop expected cs reg).2).acmIndex = reg.acmIndex := by
  intro cs
  induction cs with
  | nil => intro reg; rfl
  | cons c rest ih =>
      intro reg
      simp only [mirrorPodLoop]
      by_cases hp : c.rbdMirrorPodCount = 0
      · simp [hp, switch_ctx]
      · cases hv : (validate_csi_sidecar expected c.csiContainerObs).1 with
        | error e => simp [hp, hv, switch_ctx]
        | ok u => simp [hp, hv, ih, switch_ctx]

/-- An exception leaves the registry pointing at one of the loop's clusters. -/
theorem mirrorPodLoop_error_ctx (expected : Nat) :
    ∀ (cs : List RemoteCluster) (reg : CtxRegistry) (e : DeployExc),
      (mirrorPodLoop expected cs reg).1 = .error e →
      ∃ c ∈ cs, (mirrorPodLoop expected cs reg).2.current = c.multiclusterIndex := by
  intro cs
  induction cs with
  | nil => intro reg e h; simp [mirrorPodLoop] at h
  | cons c rest ih =>
      intro reg e h
      simp only [mirrorPodLoop] at h ⊢
      by_cases hp : c.rbdMirrorPodCount = 0
      · exact ⟨c, by simp, by simp [hp, switch_ctx]⟩
      · cases hv : (validate_csi_sidecar expected c.csiContainerObs).1 with
        | error e2 => exact ⟨c, by simp, by simp [hp, hv, switch_ctx]⟩
        | ok u =>
            obtain ⟨c2, hc2, hcur⟩ :=
              ih (switch_ctx reg c.multiclusterIndex) e (by simp [hp, hv] at h; simpa using h)
            exact ⟨c2, by simp [hc2], by simp [hp, hv, hcur]⟩

/-- C1 counterexample: with the registry at the ACM hub (index 0, recorded
before the loop) and a single secondary cluster at index 1 whose RBD-mirror
pod count is zero, the fan-out validation loop of `configure_mirror_peer`
raises `PodNotCreated` and exits with the current index still at 1 — not the
recorded index 0. -/
theorem configure_mirror_peer_ctx_not_restored :
    (configure_mirror_peer_validation 16
        [⟨"ocp-one", 1, 0, fun _ => 16⟩] ⟨0, 0⟩).1
      = .error (.podNotCreated "RBD mirror pod not found on cluster: ocp-one")
    ∧ (configure_mirror_peer_validation 16
        [⟨"ocp-one", 1, 0, fun _ => 16⟩] ⟨0, 0⟩).2.current = 1
    ∧ (1 : Nat) ≠ 0 := by
  refine ⟨rfl, rfl, by decide⟩

/-- C1 amended: entered in the ACM context (as `configure_mirror_peer` does),
the fan-out loop restores the recorded index on the successful exit path via
`switch_acm_ctx`; when `PodNotCreated` or `RBDSideCarContainerException` is
raised mid-loop the current index is left at the failing cluster's index and
is not restored. -/
theorem configure_mirror_peer_ctx_restore (expected : Nat)
    (clusters : List RemoteCluster) (reg : CtxRegistry)
    (hacm : reg.current = reg.acmIndex) :
    ((configure_mirror_peer_validation expected clusters reg).1 = .ok ()
      → (configure_mirror_peer_validation expected clusters reg).2.current
          = reg.current)
    ∧ (∀ e, (configure_mirror_peer_validation expected clusters reg).1 = .error e
      → ∃ c ∈ clusters,
          (configure_mirror_peer_validation expected clusters reg).2.current
            = c.multiclusterIndex) := by
  constructor
  · intro hok
    unfold configure_mirror_peer_validation at *
    cases hl : mirrorPodLoop expected clusters reg with
    | mk res reg2 =>
        cases res with
        | ok u =>
            have : reg2.acmIndex = reg.acmIndex := by
              have := mirrorPodLoop_acmIndex expected clusters reg
              rw [hl] at this; exact this
            simp [hl, switch_acm_ctx, this, hacm]
        | error e => simp [hl] at hok
  · intro e herr
    unfold configure_mirror_peer_validation at *
    cases hl : mirrorPodLoop expected clusters reg with
    | mk res reg2 =>
        cases res with
        | ok u => simp [hl] at herr
        | error e2 =>
            obtain ⟨c, hc, hcur⟩ := mirrorPodLoop_error_ctx expected clusters reg e2 (by rw [hl])
            refine ⟨c, hc, ?_⟩
            simpa [hl] using hcur

/-- C1 amended witness: a healthy single-cluster fan-out (pod present, sidecar
count matching) ends back at the recorded ACM index 0. -/
theorem configure_mirror_peer_ctx_restore_witness :
    (configure_mirror_peer_validation 16
        [⟨"ocp-one", 1, 2, fun _ => 16⟩] ⟨0, 0⟩).2.current = 0 :=
  (configure_mirror_peer_ctx_restore 16 [⟨"ocp-one", 1, 2, fun _ => 16⟩] ⟨0, 0⟩ rfl).1 rfl

/-- C2: evaluating `validate_mirror_peer` at a failing input — the MirrorPeer
did reach `ExchangedSecret`, and the single non-hub cluster's
token-exchange-agent pod is in phase `Pending` — returns success: the
`ResourceWrongStatusException` value the loop builds for the pod (returned
here in the third component) is never raised, although the function's own
docstring promises `Raises: ResourceWrongStatusException`. -/
theorem validate_mirror_peer_pending_pod_not_raised :
    (validate_mirror_peer true [⟨"ocp-one", 1, "token-exchange-agent-abc", "Pending"⟩]
        ⟨0, 0⟩).1 = .ok ()
    ∧ (validate_mirror_peer true [⟨"ocp-one", 1, "token-exchange-agent-abc", "Pending"⟩]
        ⟨0, 0⟩).2.2
      = [.resourceWrongStatus "token-exchange-agent-abc" "Running" "Pending"] := by
  refine ⟨rfl, by decide⟩

/-- Neither the install-plan approval step nor a CSV phase wait occurs in the
part of `subscribe_ocs` that precedes the approval-mode comparison. -/
theorem subscribeOcsHead_no_approval (conf : SubscribeConf) (env : SubscribeEnv) :
    SubscribeStep.approveInstallPlan ∉ subscribeOcsHead conf env
    ∧ ∀ ph t, SubscribeStep.csvWaitPhase ph t ∉ subscribeOcsHead conf env := by
  unfold subscribeOcsHead
  cases h : env.platformIsIBMCloud && !conf.live_deployment <;> simp

/-- C3: when `subscription_plan_approval` equals `"Manual"`, `subscribe_ocs`
finds and approves the pending install plan and waits for the CSV phase
`Installing` (timeout 60) strictly before the CSV-success wait; for any other
value of the setting no install-plan-approval step and no CSV phase wait is
executed at all, and the trace proceeds from the subscription wait directly to
the CSV wait. -/
theorem subscribe_ocs_manual_approval (conf : SubscribeConf) (env : SubscribeEnv) :
    (conf.subscription_plan_approval = some "Manual" →
      subscribe_ocs conf env
        = subscribeOcsHead conf env
          ++ [SubscribeStep.approveInstallPlan,
              SubscribeStep.csvWaitPhase "Installing" 60,
              SubscribeStep.waitCSV (subscribeOperatorName env),
              SubscribeStep.sleep 30])
    ∧ (conf.subscription_plan_approval ≠ some "Manual" →
      subscribe_ocs conf env
        = subscribeOcsHead conf env
          ++ [SubscribeStep.waitCSV (subscribeOperatorName env),
              SubscribeStep.sleep 30]
        ∧ SubscribeStep.approveInstallPlan ∉ subscribe_ocs conf env
        ∧ ∀ ph t, SubscribeStep.csvWaitPhase ph t ∉ subscribe_ocs conf env) := by
  constructor
  · intro hm
    simp [subscribe_ocs, hm]
  · intro hm
    refine ⟨by simp [subscribe_ocs, hm], ?_, ?_⟩
    · simp [subscribe_ocs, hm, (subscribeOcsHead_no_approval conf env).1]
    · intro ph t
      simp [subscribe_ocs, hm, (subscribeOcsHead_no_approval conf env).2 ph t]

/-- C3 witness: with `subscription_plan_approval="Manual"` the approval and
`Installing`-phase steps sit between the subscription wait and the CSV wait;
with `"Automatic"` no approval step occurs. -/
theorem subscribe_ocs_manual_approval_witness :
    subscribe_ocs ⟨some "Manual", none, false, false, none⟩
        ⟨false, true, "stable-4.9", "odf-operator", "ocs-operator",
          ⟨none, "alpha", none⟩, "ocs-operatorsource", "redhat-operators"⟩
      = subscribeOcsHead ⟨some "Manual", none, false, false, none⟩
          ⟨false, true, "stable-4.9", "odf-operator", "ocs-operator",
            ⟨none, "alpha", none⟩, "ocs-operatorsource", "redhat-operators"⟩
        ++ [SubscribeStep.approveInstallPlan,
            SubscribeStep.csvWaitPhase "Installing" 60,
            SubscribeStep.waitCSV "odf-operator", SubscribeStep.sleep 30]
    ∧ SubscribeStep.approveInstallPlan ∉
        subscribe_ocs ⟨some "Automatic", none, false, false, none⟩
          ⟨false, true, "stable-4.9", "odf-operator", "ocs-operator",
            ⟨none, "alpha", none⟩, "ocs-operatorsource", "redhat-operators"⟩ :=
  ⟨(subscribe_ocs_manual_approval _ _).1 rfl,
   ((subscribe_ocs_manual_approval _ _).2 (by decide)).2.1⟩

theorem deviceSizeOverlay_preserves (plan : OcsPlan) :
    PreservesTopology (deviceSizeOverlay plan) := by
  intro s; unfold deviceSizeOverlay; split_ifs <;> simp

theorem storageClassOverlay_preserves (plan : OcsPlan) :
    PreservesTopology (storageClassOverlay plan) := by
  intro s; unfold storageClassOverlay; split_ifs <;> simp

theorem lsoOverlay_preserves (plan : OcsPlan) :
    PreservesTopology (lsoOverlay plan) := by
  intro s
  unfold lsoOverlay
  rcases plan.local_storage_storagedeviceset_count with _ | n <;>
    split_ifs <;> simp

theorem resourcesOverlay_preserves (plan : OcsPlan) :
    PreservesTopology (resourcesOverlay plan) := by
  intro s; unfold resourcesOverlay; split_ifs <;> simp

theorem hostNetworkOverlay_preserves (plan : OcsPlan) :
    PreservesTopology (hostNetworkOverlay plan) := by
  intro s; unfold hostNetworkOverlay; split_ifs <;> simp

theorem ibmManageNodesOverlay_preserves (plan : OcsPlan) :
    PreservesTopology (ibmManageNodesOverlay plan) := by
  intro s; unfold ibmManageNodesOverlay; split_ifs <;> simp

/-- The overlays applied after flexible scaling — device size, storage class,
LSO tweaks, resource overrides, host network, IBM manageNodes — never touch
`flexibleScaling`, `arbiter.enable` or the device-set replica count. -/
theorem composeTail_preserves (plan : OcsPlan) (s : StorageClusterSpec) :
    (ibmManageNodesOverlay plan (hostNetworkOverlay plan (resourcesOverlay plan
        (lsoOverlay plan (storageClassOverlay plan
          (deviceSizeOverlay plan s)))))).flexibleScaling = s.flexibleScaling
    ∧ (ibmManageNodesOverlay plan (hostNetworkOverlay plan (resourcesOverlay plan
        (lsoOverlay plan (storageClassOverlay plan
          (deviceSizeOverlay plan s)))))).arbiterEnable = s.arbiterEnable
    ∧ (ibmManageNodesOverlay plan (hostNetworkOverlay plan (resourcesOverlay plan
        (lsoOverlay plan (storageClassOverlay plan
          (deviceSizeOverlay plan s)))))).deviceSet.replica
        = s.deviceSet.replica := by
  obtain ⟨a1, a2, a3⟩ := deviceSizeOverlay_preserves plan s
  obtain ⟨b1, b2, b3⟩ := storageClassOverlay_preserves plan (deviceSizeOverlay plan s)
  obtain ⟨c1, c2, c3⟩ := lsoOverlay_preserves plan
    (storageClassOverlay plan (deviceSizeOverlay plan s))
  obtain ⟨d1, d2, d3⟩ := resourcesOverlay_preserves plan
    (lsoOverlay plan (storageClassOverlay plan (deviceSizeOverlay plan s)))
  obtain ⟨e1, e2, e3⟩ := hostNetworkOverlay_preserves plan
    (resourcesOverlay plan (lsoOverlay plan (storageClassOverlay plan
      (deviceSizeOverlay plan s))))
  obtain ⟨f1, f2, f3⟩ := ibmManageNodesOverlay_preserves plan
    (hostNetworkOverlay plan (resourcesOverlay plan (lsoOverlay plan
      (storageClassOverlay plan (deviceSizeOverlay plan s)))))
  exact ⟨by rw [f1, e1, d1, c1, b1, a1], by rw [f2, e2, d2, c2, b2, a2],
         by rw [f3, e3, d3, c3, b3, a3]⟩

/-- The encryption overlay never touches the composed topology fields. -/
theorem encryptionOverlay_preserves (plan : OcsPlan) (s s2 : StorageClusterSpec)
    (h : encryptionOverlay plan s = .ok s2) :
    s2.flexibleScaling = s.flexibleScaling ∧ s2.arbiterEnable = s.arbiterEnable
      ∧ s2.deviceSet.replica = s.deviceSet.replica := by
  unfold encryptionOverlay at h
  split_ifs at h <;> cases h <;> simp

/-- C4: for every plan with `arbiter_deployment` and every base template
without a `flexibleScaling` key, a StorageClusterSpec composed by
`deploy_ocs_via_operator` never carries `flexibleScaling=true`, while setting
`arbiter.enable=true` and device-set replica 4; and the flexible-scaling
branch fires exactly when local storage is set, the 4.7 version threshold is
met, fewer than 3 zones exist, and `arbiter_deployment` is false. -/
theorem composeStorageCluster_arbiter_excludes_flexible (plan : OcsPlan)
    (base : StorageClusterSpec) (s : StorageClusterSpec)
    (hbase : base.flexibleScaling = none)
    (hok : composeStorageCluster plan base = .ok s) :
    (plan.arbiter_deployment = true →
      s.flexibleScaling ≠ some true ∧ s.arbiterEnable = some true
        ∧ s.deviceSet.replica = 4)
    ∧ (s.flexibleScaling = some true ↔
        (plan.local_storage = true ∧ plan.ocsVerGe47 = true ∧ plan.zone_num < 3
          ∧ plan.arbiter_deployment = false)) := by
  unfold composeStorageCluster at hok
  obtain ⟨hf, ha, hr⟩ := encryptionOverlay_preserves plan _ s hok
  obtain ⟨tf, ta, tr⟩ := composeTail_preserves plan
    (flexibleScalingOverlay plan (arbiterOverlay plan base))
  have hflex : s.flexibleScaling
      = (flexibleScalingOverlay plan (arbiterOverlay plan base)).flexibleScaling := by
    rw [hf, tf]
  have harb : s.arbiterEnable
      = (flexibleScalingOverlay plan (arbiterOverlay plan base)).arbiterEnable := by
    rw [ha, ta]
  have hrep : s.deviceSet.replica
      = (flexibleScalingOverlay plan (arbiterOverlay plan base)).deviceSet.replica := by
    rw [hr, tr]
  constructor
  · intro harbiter
    have hcond : flexibleScalingCond plan = false := by
      simp [flexibleScalingCond, harbiter]
    refine ⟨?_, ?_, ?_⟩
    · rw [hflex]
      simp [flexibleScalingOverlay, hcond, arbiterOverlay, harbiter, hbase]
    · rw [harb]
      simp [flexibleScalingOverlay, hcond, arbiterOverlay, harbiter]
    · rw [hrep]
      simp [flexibleScalingOverlay, hcond, arbiterOverlay, harbiter]
  · rw [hflex]
    unfold flexibleScalingOverlay
    cases hcond : flexibleScalingCond plan
    · simp only [Bool.false_eq_true, if_false]
      have : (arbiterOverlay plan base).flexibleScaling = none := by
        unfold arbiterOverlay
        split_ifs <;> simp [hbase]
      rw [this]
      simp only [flexibleScalingCond, Bool.and_eq_true, Bool.not_eq_true',
        decide_eq_true_iff] at hcond
      constructor
      · intro h; exact absurd h (by simp)
      · intro ⟨h1, h2, h3, h4⟩
        rw [h1, h2, h4] at hcond
        simp [h3] at hcond
    · simp only [if_true]
      simp only [flexibleScalingCond, Bool.and_eq_true, Bool.not_eq_true',
        decide_eq_true_iff] at hcond
      simp [hcond]

/-- C4 witness: the spec's example plan — arbiter on, no local storage, AWS,
device size 512 — composes to a spec with `arbiter.enable=true`, replica 4, a
512Gi data PVC request and no `flexibleScaling` key. -/
theorem composeStorageCluster_arbiter_witness :
    composeStorageCluster
        ⟨true, false, false, false, false, false, 3, "aws", 512, false, false,
          none, false, false, false, "arbiter-zone-c", [], some "gp2", "localblock"⟩
        ⟨none, none, none, ⟨"ocs-deviceset", 1, 3, true, none, none, .fromTemplate⟩,
          none, none, false, .fromTemplate, none, false⟩
      = .ok ⟨some true, some "arbiter-zone-c", none,
          ⟨"ocs-deviceset", 1, 4, true, some "gp2", some "512Gi", .fromTemplate⟩,
          none, none, false, .fromTemplate, none, false⟩
    ∧ (⟨some true, some "arbiter-zone-c", none,
          ⟨"ocs-deviceset", 1, 4, true, some "gp2", some "512Gi", .fromTemplate⟩,
          none, none, false, .fromTemplate, none, false⟩
        : StorageClusterSpec).flexibleScaling ≠ some true :=
  ⟨rfl,
   ((composeStorageCluster_arbiter_excludes_flexible
      ⟨true, false, false, false, false, false, 3, "aws", 512, false, false,
        none, false, false, false, "arbiter-zone-c", [], some "gp2", "localblock"⟩
      ⟨none, none, none, ⟨"ocs-deviceset", 1, 3, true, none, none, .fromTemplate⟩,
        none, none, false, .fromTemplate, none, false⟩
      ⟨some true, some "arbiter-zone-c", none,
        ⟨"ocs-deviceset", 1, 4, true, some "gp2", some "512Gi", .fromTemplate⟩,
        none, none, false, .fromTemplate, none, false⟩
      rfl rfl).1 rfl).1⟩

/-- C5: when a CephCluster resource already exists, `deploy_ocs` is a no-op —
it returns right after the idempotency check without raising, its trace stops
at the registry-state patch, and no action in the trace creates a cluster
resource. -/
theorem deploy_ocs_idempotent_on_existing_cephcluster (env : OcsEnv)
    (h : env.cephClusterItems ≠ 0) :
    (deploy_ocs env).1 = .ok ()
    ∧ (deploy_ocs env).2 = [OcsAction.setRegistryManaged]
    ∧ ∀ a ∈ (deploy_ocs env).2, a.createsResource = false := by
  refine ⟨by simp [deploy_ocs, h], by simp [deploy_ocs, h], ?_⟩
  intro a ha
  simp [deploy_ocs, h] at ha
  subst ha
  rfl

/-- C5 witness: a cluster state with one existing CephCluster item. -/
theorem deploy_ocs_idempotent_witness :
    (deploy_ocs ⟨1, false, false, false, false, false, false, none, false,
        false, "aws", none, true⟩).1 = .ok ()
    ∧ (deploy_ocs ⟨1, false, false, false, false, false, false, none, false,
        false, "aws", none, true⟩).2 = [OcsAction.setRegistryManaged] :=
  ⟨(deploy_ocs_idempotent_on_existing_cephcluster _ (by decide)).1,
   (deploy_ocs_idempotent_on_existing_cephcluster _ (by decide)).2.1⟩

/-- C7 counterexample: a `CephHealthException` whose message lacks the
clock-skew signature does not propagate — `cephHealthVerification` returns
success after the single tries=30 check (the warning is only logged), so the
claim's "propagates as fatal" fails at this input. -/
theorem cephHealthVerification_swallows_other_failures :
    cephHealthVerification ⟨0, false, false, false, false, false, false, none,
        false, false, "vsphere", some "HEALTH_ERR 1 full osd(s)", true⟩
      = (.ok (), [OcsAction.cephHealthCheck 30]) := by
  have : strContains "HEALTH_ERR 1 full osd(s)" "clock skew detected" = false := by
    decide
  simp [cephHealthVerification, this]

/-- C7 amended: the final health verification has exactly one automatic
remediation — on a `CephHealthException` carrying the clock-skew signature it
resynchronizes NTP (on the vSphere platform only) and retries once with the
larger tries=60 budget, failing the deployment only if that retry still finds
the cluster unhealthy; a `CephHealthException` without the signature is logged
and swallowed, the verification returning success after the single tries=30
check. -/
theorem cephHealthVerification_remediation (env : OcsEnv) :
    (env.firstHealth = none →
      cephHealthVerification env = (.ok (), [OcsAction.cephHealthCheck 30]))
    ∧ (∀ msg, env.firstHealth = some msg →
        strContains msg "clock skew detected" = true →
        cephHealthVerification env
          = (if env.retryHealthOk then Except.ok ()
             else Except.error DeployExc.assertionFailed,
             [OcsAction.cephHealthCheck 30]
               ++ (if env.platform = "vsphere"
                   then [OcsAction.updateNtpComputeNodes] else [])
               ++ [OcsAction.cephHealthCheck 60]))
    ∧ (∀ msg, env.firstHealth = some msg →
        strContains msg "clock skew detected" = false →
        cephHealthVerification env = (.ok (), [OcsAction.cephHealthCheck 30])) := by
  refine ⟨?_, ?_, ?_⟩
  · intro h; simp [cephHealthVerification, h]
  · intro msg h hskew
    simp only [cephHealthVerification, h, hskew, if_true]
    split_ifs <;> simp_all
  · intro msg h hskew
    simp [cephHealthVerification, h, hskew]

/-- C7 amended witness: on vSphere, a clock-skew health failure triggers the
NTP resync and the tries=60 retry which then passes; a healthy first check
runs once. -/
theorem cephHealthVerification_remediation_witness :
    cephHealthVerification ⟨0, false, false, false, false, false, false, none,
        false, false, "vsphere", some "HEALTH_WARN clock skew detected on mon.b", true⟩
      = (.ok (), [OcsAction.cephHealthCheck 30, OcsAction.updateNtpComputeNodes,
                  OcsAction.cephHealthCheck 60])
    ∧ cephHealthVerification ⟨0, false, false, false, false, false, false, none,
        false, false, "aws", none, true⟩
      = (.ok (), [OcsAction.cephHealthCheck 30]) := by
  constructor
  · have := ((cephHealthVerification_remediation
      ⟨0, false, false, false, false, false, false, none, false, false,
        "vsphere", some "HEALTH_WARN clock skew detected on mon.b", true⟩).2.1
      "HEALTH_WARN clock skew detected on mon.b" rfl (by decide))
    simpa using this
  · exact (cephHealthVerification_remediation
      ⟨0, false, false, false, false, false, false, none, false, false,
        "aws", none, true⟩).1 rfl

/-- Scanning the profile list without a single substring match leaves the
entry's profile name untouched. -/
theorem assignProfile_no_match (cname : String) (profiles : List String)
    (e : DRClusterEntry) (h : ∀ p ∈ profiles, strContains p cname = false) :
    assignProfile cname profiles e = { e with name := cname } := by
  unfold assignProfile
  generalize { e with name := cname } = acc
  induction profiles generalizing acc with
  | nil => rfl
  | cons p rest ih =>
      simp only [List.foldl_cons]
      rw [if_neg (by simp [h p (List.mem_cons_self p rest)])]
      exact ih (fun q hq => h q (List.mem_cons_of_mem p hq)) acc

/-- If the template entries start with empty profile names and some zipped
cluster has no matching S3 profile, the drClusterSet loop raises the
structured `RDRDeploymentException`. -/
theorem fillDrClusterSet_missing_profile (profiles : List String) :
    ∀ pairs : List (String × DRClusterEntry),
      (∀ pr ∈ pairs, pr.2.s3ProfileName = "") →
      (∃ pr ∈ pairs, ∀ p ∈ profiles, strContains p pr.1 = false) →
      ∃ msg, fillDrClusterSet profiles pairs = .error (.rdrDeployment msg) := by
  intro pairs
  induction pairs with
  | nil => intro _ hex; simp at hex
  | cons pr rest ih =>
      intro hinit hex
      obtain ⟨cname, e⟩ := pr
      by_cases ha : (assignProfile cname profiles e).s3ProfileName = ""
      · refine ⟨"Not able to find s3profile for cluster " ++ cname
          ++ ",Regional DR deployment will not succeed", ?_⟩
        simp [fillDrClusterSet, ha]
      · have hnothead : ¬ (∀ p ∈ profiles, strContains p cname = false) := by
          intro hall
          rw [assignProfile_no_match cname profiles e hall] at ha
          exact ha (hinit (cname, e) (List.mem_cons_self _ _))
        have hex2 : ∃ pr ∈ rest, ∀ p ∈ profiles, strContains p pr.1 = false := by
          rcases hex with ⟨pr2, hpr2, hall2⟩
          rcases List.mem_cons.mp hpr2 with heq | hmem
          · exact absurd (by rw [heq] at hall2; exact hall2) hnothead
          · exact ⟨pr2, hmem, hall2⟩
        obtain ⟨msg, hmsg⟩ :=
          ih (fun q hq => hinit q (List.mem_cons_of_mem _ hq)) hex2
        refine ⟨msg, ?_⟩
        simp only [fillDrClusterSet]
        rw [if_neg ha, hmsg]

/-- C6: when some participating non-hub cluster has no S3 profile whose name
contains the cluster's name, `deploy_dr_policy` raises
`RDRDeploymentException` and its trace is empty — in particular the
`oc create` for the DRPolicy manifest is never issued. -/
theorem deploy_dr_policy_missing_profile (clusterNames : List String)
    (templateEntries : List DRClusterEntry) (profiles : List String)
    (st : Bool)
    (hinit : ∀ e ∈ templateEntries, e.s3ProfileName = "")
    (hfail : ∃ pr ∈ clusterNames.zip templateEntries,
        ∀ p ∈ profiles, strContains p pr.1 = false) :
    (∃ msg, (deploy_dr_policy clusterNames templateEntries profiles st).1
        = .error (.rdrDeployment msg))
    ∧ DRAction.createDrPolicy
        ∉ (deploy_dr_policy clusterNames templateEntries profiles st).2 := by
  have hinit2 : ∀ pr ∈ clusterNames.zip templateEntries, pr.2.s3ProfileName = "" := by
    intro pr hpr
    exact hinit pr.2 (List.of_mem_zip hpr).2
  obtain ⟨msg, hmsg⟩ :=
    fillDrClusterSet_missing_profile profiles (clusterNames.zip templateEntries)
      hinit2 hfail
  refine ⟨⟨msg, ?_⟩, ?_⟩ <;> simp [deploy_dr_policy, hmsg]

/-- C6 witness: cluster `ocp-c1` with an empty template entry and a profile
list whose only profile names a different cluster. -/
theorem deploy_dr_policy_missing_profile_witness :
    (∃ msg, (deploy_dr_policy ["ocp-c1"] [⟨"", ""⟩] ["s3profile-ocp-c2-ocs"] true).1
        = .error (.rdrDeployment msg))
    ∧ DRAction.createDrPolicy
        ∉ (deploy_dr_policy ["ocp-c1"] [⟨"", ""⟩] ["s3profile-ocp-c2-ocs"] true).2 :=
  deploy_dr_policy_missing_profile ["ocp-c1"] [⟨"", ""⟩] ["s3profile-ocp-c2-ocs"] true
    (by decide) ⟨("ocp-c1", ⟨"", ""⟩), by decide, by decide⟩

/-- C10: the subscription and CSV waits match by substring, not equality — a
listing containing any name that merely contains the pattern satisfies either
wait at that same sample, and a sample finds a resource exactly when some
listed name contains the pattern. -/
theorem wait_for_subscription_csv_substring (pattern nm : String)
    (samples : Nat → List String) (hmem : nm ∈ samples 1)
    (hsub : strContains nm pattern = true) :
    (∃ found, wait_for_subscription pattern samples = some (1, found)
        ∧ strContains found pattern = true)
    ∧ (∃ found, wait_for_csv pattern samples = some (1, found)
        ∧ strContains found pattern = true)
    ∧ (∀ items : List String, (findMatchingResource pattern items).isSome
        ↔ ∃ x ∈ items, strContains x pattern = true) := by
  have hfind : (findMatchingResource pattern (samples 1)).isSome := by
    unfold findMatchingResource
    exact List.find?_isSome.mpr ⟨nm, hmem, hsub⟩
  obtain ⟨found, hfound⟩ := Option.isSome_iff_exists.mp hfind
  have hprop : nameMatches pattern found = true := by
    unfold findMatchingResource at hfound
    exact List.find?_some hfound
  have hw : waitForNamedResource pattern samples 1 30 = some (1, found) := by
    rw [show (30 : Nat) = 29 + 1 from rfl]
    unfold waitForNamedResource
    rw [hfound]
  refine ⟨⟨found, hw, hprop⟩, ⟨found, hw, hprop⟩, ?_⟩
  intro items
  unfold findMatchingResource
  exact List.find?_isSome

/-- C10 witness: the pattern `ocs-operator` is satisfied at the first sample
by the differently-named resource `ocs-operator-internal.v4.9`. -/
theorem wait_for_subscription_csv_substring_witness :
    (∃ found, wait_for_subscription "ocs-operator"
          (fun _ => ["ocs-operator-internal.v4.9"]) = some (1, found)
        ∧ strContains found "ocs-operator" = true)
    ∧ "ocs-operator-internal.v4.9" ≠ "ocs-operator" :=
  ⟨(wait_for_subscription_csv_substring "ocs-operator" "ocs-operator-internal.v4.9"
      (fun _ => ["ocs-operator-internal.v4.9"]) (by decide) (by decide)).1,
   by decide⟩


theorem sortYValPairs_eq_map (l : List (String × YVal)) :
    sortYValPairs l = l.map (fun p => (p.1, sortYVal p.2)) := by
  induction l with
  | nil => rfl
  | cons p rest ih => cases p; simp [sortYValPairs, ih]

theorem sortYValPairs_append (a b : List (String × YVal)) :
    sortYValPairs (a ++ b) = sortYValPairs a ++ sortYValPairs b := by
  simp [sortYValPairs_eq_map]

theorem renderEntries_append (ind : Nat) (a b : List (String × YVal)) :
    renderEntries ind (a ++ b) = renderEntries ind a ++ renderEntries ind b := by
  induction a with
  | nil => rfl
  | cons p rest ih => cases p; simp [renderEntries, ih]

theorem sortPairs_perm (l : List (String × YVal)) : (sortPairs l).Perm l :=
  List.perm_insertionSort _ l

theorem strLeChars_total : ∀ x y : List Char,
    strLeChars x y = true ∨ strLeChars y x = true := by
  intro x
  induction x with
  | nil => intro y; left; rfl
  | cons a as ih =>
      intro y
      cases y with
      | nil => right; rfl
      | cons b bs =>
          simp only [strLeChars]
          rcases Nat.lt_trichotomy a.toNat b.toNat with h | h | h
          · left; simp [h]
          · rcases ih bs with h2 | h2
            · left; simp [h, h2]
            · right; simp [h, h2]
          · right; simp [h, Nat.lt_asymm h]

theorem strLeChars_trans : ∀ x y z : List Char,
    strLeChars x y = true → strLeChars y z = true → strLeChars x z = true := by
  intro x
  induction x with
  | nil => intro y z h1 h2; rfl
  | cons a as ih =>
      intro y z h1 h2
      cases y with
      | nil => simp [strLeChars] at h1
      | cons b bs =>
          cases z with
          | nil => simp [strLeChars] at h2
          | cons c cs =>
              simp only [strLeChars] at h1 h2 ⊢
              rcases Nat.lt_trichotomy a.toNat b.toNat with hab | hab | hab
              · rcases Nat.lt_trichotomy b.toNat c.toNat with hbc | hbc | hbc
                · simp [Nat.lt_trans hab hbc]
                · simp [hbc ▸ hab]
                · simp [hbc, Nat.lt_asymm hbc] at h2
              · rcases Nat.lt_trichotomy b.toNat c.toNat with hbc | hbc | hbc
                · simp [hab ▸ hbc]
                · have hac : a.toNat = c.toNat := hab.trans hbc
                  simp [hab, Nat.lt_irrefl] at h1
                  simp [hbc, Nat.lt_irrefl] at h2
                  simp [hac, Nat.lt_irrefl]
                  exact ih bs cs h1 h2
                · simp [hbc, Nat.lt_asymm hbc] at h2
              · simp [hab, Nat.lt_asymm hab] at h1

theorem strLeChars_antisymm : ∀ x y : List Char,
    strLeChars x y = true → strLeChars y x = true → x = y := by
  intro x
  induction x with
  | nil =>
      intro y h1 h2
      cases y with
      | nil => rfl
      | cons b bs => simp [strLeChars] at h2
  | cons a as ih =>
      intro y h1 h2
      cases y with
      | nil => simp [strLeChars] at h1
      | cons b bs =>
          simp only [strLeChars] at h1 h2
          rcases Nat.lt_trichotomy a.toNat b.toNat with hab | hab | hab
          · simp [hab, Nat.lt_asymm hab] at h2
          · simp [hab, Nat.lt_irrefl] at h1 h2
            have hchar : a = b := Char.eq_of_val_eq (by
              have h3 := hab
              unfold Char.toNat at h3
              exact UInt32.ext h3)
            rw [hchar, ih bs h1 h2]
          · simp [hab, Nat.lt_asymm hab] at h1

theorem strLe_antisymm (a b : String) (h1 : strLe a b = true)
    (h2 : strLe b a = true) : a = b := by
  have := strLeChars_antisymm a.toList b.toList h1 h2
  exact String.ext (by simpa [String.toList] using this)

theorem sortPairs_sorted (l : List (String × YVal)) :
    (sortPairs l).Sorted (fun a b => strLe a.1 b.1 = true) := by
  haveI : IsTotal (String × YVal) (fun a b => strLe a.1 b.1 = true) :=
    ⟨fun a b => strLeChars_total a.1.toList b.1.toList⟩
  haveI : IsTrans (String × YVal) (fun a b => strLe a.1 b.1 = true) :=
    ⟨fun a b c h1 h2 => strLeChars_trans a.1.toList b.1.toList c.1.toList h1 h2⟩
  exact List.sorted_insertionSort _ l

theorem sortPairs_perm_eq (l1 l2 : List (String × YVal)) (hperm : l1.Perm l2)
    (hnod : keysNodup l1) : sortPairs l1 = sortPairs l2 := by
  have hp : (sortPairs l1).Perm (sortPairs l2) :=
    ((sortPairs_perm l1).trans hperm).trans (sortPairs_perm l2).symm
  have hn1 : keysNodup (sortPairs l1) := by
    unfold keysNodup at hnod ⊢
    exact ((sortPairs_perm l1).map Prod.fst).nodup_iff.mpr hnod
  have hn2 : keysNodup (sortPairs l2) := by
    unfold keysNodup at hn1 ⊢
    exact (hp.map Prod.fst).nodup_iff.mp hn1
  have hs1 : (sortPairs l1).Sorted (fun a b => strLe a.1 b.1 = true ∧ a.1 ≠ b.1) := by
    have hne : (sortPairs l1).Pairwise (fun a b => a.1 ≠ b.1) := by
      have := hn1
      unfold keysNodup at this
      exact List.pairwise_map.mp this
    exact ((sortPairs_sorted l1).and hne).imp (fun h => h)
  have hs2 : (sortPairs l2).Sorted (fun a b => strLe a.1 b.1 = true ∧ a.1 ≠ b.1) := by
    have hne : (sortPairs l2).Pairwise (fun a b => a.1 ≠ b.1) := by
      have := hn2
      unfold keysNodup at this
      exact List.pairwise_map.mp this
    exact ((sortPairs_sorted l2).and hne).imp (fun h => h)
  exact hp.eq_of_sorted
    (fun a b _ _ h1 h2 => absurd (strLe_antisymm _ _ h1.1 h2.1) h1.2) hs1 hs2

theorem isPrefixOf_char (pat l : List Char) :
    pat.isPrefixOf l = true ↔ pat <+: l :=
  List.isPrefixOf_iff_prefix

theorem replaceAll_nil (pat repl : List Char) : replaceAll pat repl [] = [] := rfl

/-- The fuel argument is irrelevant once it dominates the list length. -/
theorem replaceAllFuel_congr (pat repl : List Char) :
    ∀ (n : Nat) (l : List Char) (m : Nat), l.length ≤ n → l.length ≤ m →
      replaceAllFuel pat repl n l = replaceAllFuel pat repl m l := by
  intro n
  induction n with
  | zero =>
      intro l m h1 h2
      have : l = [] := List.length_eq_zero.mp (Nat.le_zero.mp h1)
      subst this
      cases m <;> rfl
  | succ n ih =>
      intro l m h1 h2
      cases l with
      | nil => cases m <;> rfl
      | cons c rest =>
          cases m with
          | zero => simp at h2
          | succ m =>
              simp only [replaceAllFuel]
              by_cases hc : pat.isPrefixOf (c :: rest) = true ∧ pat ≠ []
              · rw [if_pos hc, if_pos hc]
                congr 1
                have hp1 : 1 ≤ pat.length := by
                  cases pat with
                  | nil => exact absurd rfl hc.2
                  | cons p ps => simp
                simp only [List.length_cons] at h1 h2
                exact ih _ m (by simp [List.length_drop]; omega)
                  (by simp [List.length_drop]; omega)
              · rw [if_neg hc, if_neg hc]
                simp only [List.length_cons] at h1 h2
                exact congrArg _ (ih rest m (by omega) (by omega))

theorem replaceAll_step_pos (pat repl : List Char) (c : Char) (rest : List Char)
    (h : pat.isPrefixOf (c :: rest) = true) (hne : pat ≠ []) :
    replaceAll pat repl (c :: rest)
      = repl ++ replaceAll pat repl ((c :: rest).drop pat.length) := by
  unfold replaceAll
  simp only [List.length_cons, replaceAllFuel]
  rw [if_pos ⟨h, hne⟩]
  congr 1
  have hp1 : 1 ≤ pat.length := by
    cases pat with
    | nil => exact absurd rfl hne
    | cons p ps => simp
  exact replaceAllFuel_congr pat repl rest.length _ _
    (by simp [List.length_drop]; omega) le_rfl

theorem replaceAll_step_neg (pat repl : List Char) (c : Char) (rest : List Char)
    (h : ¬ pat.isPrefixOf (c :: rest) = true) :
    replaceAll pat repl (c :: rest) = c :: replaceAll pat repl rest := by
  unfold replaceAll
  simp only [List.length_cons, replaceAllFuel]
  rw [if_neg (fun hc => h hc.1)]

/-- A newline-free pattern sitting as a prefix of `a ++ '\n' :: b` fits inside
`a` and is a prefix of it. -/
theorem prefix_left_of_no_newline (pat a b : List Char) (hnl : Char.ofNat 10 ∉ pat)
    (h : pat <+: a ++ Char.ofNat 10 :: b) : pat <+: a := by
  have htake := List.prefix_iff_eq_take.mp h
  have hlen : pat.length ≤ a.length := by
    by_contra hgt
    push_neg at hgt
    rw [List.take_append_eq_append_take, List.take_of_length_le (by omega)] at htake
    have : Char.ofNat 10 ∈ pat := by
      rw [htake]
      refine List.mem_append_right _ ?_
      have : 1 ≤ pat.length - a.length := by omega
      cases hq : pat.length - a.length with
      | zero => omega
      | succ m => simp [List.take_cons]
    exact hnl this
  exact List.prefix_iff_eq_take.mpr
    (htake.trans (List.take_append_of_le_length hlen))

/-- A pattern with no newline cannot start at the newline character. -/
theorem not_isPrefixOf_newline (pat : List Char) (b : List Char) (hne : pat ≠ [])
    (hnl : Char.ofNat 10 ∉ pat) : ¬ pat.isPrefixOf (Char.ofNat 10 :: b) = true := by
  intro hcon
  have hpre := (isPrefixOf_char _ _).mp hcon
  cases pat with
  | nil => exact hne rfl
  | cons p ps =>
      have := (List.cons_prefix_cons.mp hpre).1
      exact hnl (by simp [this])

theorem replaceAll_append_newline_aux (pat repl : List Char) (hne : pat ≠ [])
    (hnl : Char.ofNat 10 ∉ pat) :
    ∀ (n : Nat) (a b : List Char), a.length ≤ n →
      replaceAll pat repl (a ++ Char.ofNat 10 :: b)
        = replaceAll pat repl a ++ Char.ofNat 10 :: replaceAll pat repl b := by
  intro n
  induction n with
  | zero =>
      intro a b ha
      have : a = [] := List.length_eq_zero.mp (Nat.le_zero.mp ha)
      subst this
      simp only [List.nil_append]
      rw [replaceAll_step_neg pat repl _ b (not_isPrefixOf_newline pat b hne hnl),
        replaceAll_nil]
      rfl
  | succ n ih =>
      intro a b ha
      cases a with
      | nil =>
          simp only [List.nil_append]
          rw [replaceAll_step_neg pat repl _ b (not_isPrefixOf_newline pat b hne hnl),
            replaceAll_nil]
          rfl
      | cons c a2 =>
          rw [List.cons_append]
          by_cases hm : pat.isPrefixOf (c :: a2) = true
          · have hpre : pat <+: c :: a2 := (isPrefixOf_char _ _).mp hm
            have hlen : pat.length ≤ (c :: a2).length := hpre.length_le
            have hmbig : pat.isPrefixOf (c :: (a2 ++ Char.ofNat 10 :: b)) = true := by
              rw [isPrefixOf_char, ← List.cons_append]
              exact hpre.trans (List.prefix_append _ _)
            rw [replaceAll_step_pos pat repl _ _ hmbig hne,
                replaceAll_step_pos pat repl _ _ hm hne]
            have hdrop : (c :: (a2 ++ Char.ofNat 10 :: b)).drop pat.length
                = (c :: a2).drop pat.length ++ Char.ofNat 10 :: b := by
              rw [← List.cons_append]
              exact List.drop_append_of_le_length hlen
            rw [hdrop, ih ((c :: a2).drop pat.length) b ?hl]
            · simp
            case hl =>
              have h1 : 1 ≤ pat.length := by
                cases pat with
                | nil => exact absurd rfl hne
                | cons p ps => simp
              simp only [List.length_drop, List.length_cons]
              simp only [List.length_cons] at ha
              omega
          · have hmbig : ¬ pat.isPrefixOf (c :: (a2 ++ Char.ofNat 10 :: b)) = true := by
              intro hcon
              apply hm
              rw [isPrefixOf_char]
              exact prefix_left_of_no_newline pat (c :: a2) b hnl
                (by rw [← List.cons_append] at hcon; exact (isPrefixOf_char _ _).mp hcon)
            rw [replaceAll_step_neg pat repl _ _ hmbig,
                replaceAll_step_neg pat repl _ _ hm,
                ih a2 b (by simpa using Nat.succ_le_succ_iff.mp (by simpa using ha))]
            rfl

theorem replaceAll_append_newline (pat repl : List Char) (hne : pat ≠ [])
    (hnl : Char.ofNat 10 ∉ pat) (a b : List Char) :
    replaceAll pat repl (a ++ Char.ofNat 10 :: b)
      = replaceAll pat repl a ++ Char.ofNat 10 :: replaceAll pat repl b :=
  replaceAll_append_newline_aux pat repl hne hnl a.length a b le_rfl

theorem replaceAll_joinLines (pat repl : List Char) (hne : pat ≠ [])
    (hnl : Char.ofNat 10 ∉ pat) (ls : List (List Char)) :
    replaceAll pat repl (joinLinesChars ls)
      = joinLinesChars (ls.map (replaceAll pat repl)) := by
  induction ls with
  | nil => simp [joinLinesChars, replaceAll_nil]
  | cons l rest ih =>
      simp only [joinLinesChars, List.map]
      have hc : ('\n' : Char) = Char.ofNat 10 := rfl
      rw [hc, replaceAll_append_newline pat repl hne hnl l (joinLinesChars rest), ih]

theorem replaceAll_of_not_infix (pat repl : List Char) :
    ∀ l : List Char, ¬ (pat <:+: l) → replaceAll pat repl l = l := by
  intro l
  induction l with
  | nil => intro h; exact replaceAll_nil pat repl
  | cons c rest ih =>
      intro h
      have hm : ¬ pat.isPrefixOf (c :: rest) = true := by
        intro hcon
        exact h ((isPrefixOf_char _ _).mp hcon).isInfix
      rw [replaceAll_step_neg pat repl _ _ hm, ih (fun hcon => h (List.infix_cons hcon))]

theorem keysNodup_perm {l l2 : List (String × YVal)} (h : l.Perm l2)
    (hn : keysNodup l) : keysNodup l2 :=
  ((h.map Prod.fst).nodup_iff).mp hn

theorem removeKeyY_perm (k : String) {l l2 : List (String × YVal)}
    (h : l.Perm l2) : (removeKeyY l k).Perm (removeKeyY l2 k) :=
  h.filter _

theorem findKey_isSome_iff (l : List (String × YVal)) (k : String) :
    (l.find? (fun p => p.1 = k)).isSome = true ↔ k ∈ l.map Prod.fst := by
  rw [List.find?_isSome]
  constructor
  · rintro ⟨p, hp, hpk⟩
    exact List.mem_map.mpr ⟨p, hp, by simpa using hpk⟩
  · rintro hmem
    obtain ⟨p, hp, hpk⟩ := List.mem_map.mp hmem
    exact ⟨p, hp, by simpa using hpk⟩

theorem lookupY_eq_none_iff (l : List (String × YVal)) (k : String) :
    lookupY l k = none ↔ ∀ p ∈ l, p.1 ≠ k := by
  unfold lookupY
  rw [Option.map_eq_none']
  rw [List.find?_eq_none]
  simp

theorem lookupY_eq_some_iff (l : List (String × YVal)) (k : String) (v : YVal)
    (hn : keysNodup l) : lookupY l k = some v ↔ (k, v) ∈ l := by
  induction l with
  | nil => simp [lookupY]
  | cons p rest ih =>
      have hn2 : keysNodup rest := by
        unfold keysNodup at hn ⊢
        exact (List.nodup_cons.mp hn).2
      by_cases hk : p.1 = k
      · have hfind : lookupY (p :: rest) k = some p.2 := by
          unfold lookupY
          rw [List.find?_cons_of_pos _ (by simpa using hk)]
          rfl
        rw [hfind]
        constructor
        · intro hv
          have : p = (k, v) := by
            cases p
            simp only [Option.some.injEq] at hv
            simp only at hk
            simp [hk, hv]
          rw [← this]
          exact List.mem_cons_self _ _
        · intro hmem
          rcases List.mem_cons.mp hmem with heq | hmem2
          · rw [← heq]
          · exfalso
            have hkmem : k ∈ rest.map Prod.fst :=
              List.mem_map.mpr ⟨(k, v), hmem2, rfl⟩
            unfold keysNodup at hn
            have := (List.nodup_cons.mp hn).1
            rw [hk] at this
            exact this hkmem
      · have hfind : lookupY (p :: rest) k = lookupY rest k := by
          unfold lookupY
          rw [List.find?_cons_of_neg _ (by simpa using hk)]
        rw [hfind, ih hn2]
        constructor
        · exact fun h => List.mem_cons_of_mem _ h
        · intro hmem
          rcases List.mem_cons.mp hmem with heq | hmem2
          · exact absurd (by rw [← heq]) hk
          · exact hmem2

theorem lookupY_perm (k : String) {l l2 : List (String × YVal)} (h : l.Perm l2)
    (hn : keysNodup l) : lookupY l k = lookupY l2 k := by
  cases h1 : lookupY l k with
  | some v =>
      exact ((lookupY_eq_some_iff l2 k v (keysNodup_perm h hn)).mpr
        (h.mem_iff.mp ((lookupY_eq_some_iff l k v hn).mp h1))).symm
  | none =>
      have := (lookupY_eq_none_iff l k).mp h1
      exact ((lookupY_eq_none_iff l2 k).mpr
        (fun p hp => this p (h.mem_iff.mpr hp))).symm

theorem setKeyY_perm (k : String) (v : YVal) {l l2 : List (String × YVal)}
    (h : l.Perm l2) : (setKeyY l k v).Perm (setKeyY l2 k v) := by
  unfold setKeyY
  by_cases hs : (l.find? (fun p => p.1 = k)).isSome = true
  · have hs2 : (l2.find? (fun p => p.1 = k)).isSome = true := by
      rw [findKey_isSome_iff] at hs ⊢
      exact (h.map Prod.fst).mem_iff.mp hs
    rw [if_pos hs, if_pos hs2]
    exact h.map _
  · have hs2 : ¬ (l2.find? (fun p => p.1 = k)).isSome = true := by
      rw [findKey_isSome_iff] at hs ⊢
      exact fun hc => hs ((h.map Prod.fst).mem_iff.mpr hc)
    rw [if_neg hs, if_neg hs2]
    exact h.append_right _

theorem keysNodup_removeKeyY (l : List (String × YVal)) (k : String)
    (hn : keysNodup l) : keysNodup (removeKeyY l k) := by
  unfold keysNodup at hn ⊢
  exact hn.sublist ((List.filter_sublist l).map Prod.fst)

theorem not_mem_keys_removeKeyY (l : List (String × YVal)) (k : String) :
    k ∉ (removeKeyY l k).map Prod.fst := by
  intro hmem
  obtain ⟨p, hp, hpk⟩ := List.mem_map.mp hmem
  have := (List.mem_filter.mp hp).2
  simp at this
  exact this hpk

theorem setKeyY_of_not_mem_keys (l : List (String × YVal)) (k : String) (v : YVal)
    (hk : k ∉ l.map Prod.fst) : setKeyY l k v = l ++ [(k, v)] := by
  unfold setKeyY
  rw [if_neg (fun hs => hk ((findKey_isSome_iff l k).mp hs))]

theorem keysNodup_setKeyY_fresh (l : List (String × YVal)) (k : String) (v : YVal)
    (hk : k ∉ l.map Prod.fst) (hn : keysNodup l) : keysNodup (setKeyY l k v) := by
  rw [setKeyY_of_not_mem_keys l k v hk]
  unfold keysNodup at hn ⊢
  rw [List.map_append]
  exact List.Nodup.append hn (by simp) (by simpa [List.disjoint_right] using hk)

theorem mem_setKeyY_of_found (l : List (String × YVal)) (k : String) (v : YVal)
    (hs : (l.find? (fun p => p.1 = k)).isSome = true) : (k, v) ∈ setKeyY l k v := by
  unfold setKeyY
  rw [if_pos hs]
  rw [findKey_isSome_iff] at hs
  obtain ⟨p, hp, hpk⟩ := List.mem_map.mp hs
  exact List.mem_map.mpr ⟨p, hp, by simp [hpk]⟩

theorem renderEntry_map_ne_nil (ind : Nat) (k : String)
    (L : List (String × YVal)) (h : L ≠ []) :
    renderEntry ind k (.map L) = (pad ind ++ k ++ ":") :: renderEntries (ind + 2) L := by
  cases L with
  | nil => exact absurd rfl h
  | cons q qs => rfl

theorem renderEntries_cons (ind : Nat) (k : String) (v : YVal)
    (rest : List (String × YVal)) :
    renderEntries ind ((k, v) :: rest)
      = renderEntry ind k v ++ renderEntries ind rest := rfl

theorem sortYVal_map (kvs : List (String × YVal)) :
    sortYVal (.map kvs) = .map (sortPairs (sortYValPairs kvs)) := by
  rw [sortYVal]

theorem mem_sortPairs_sortYValPairs {p : String × YVal}
    {l : List (String × YVal)} (h : p ∈ l) :
    (p.1, sortYVal p.2) ∈ sortPairs (sortYValPairs l) := by
  apply (sortPairs_perm _).mem_iff.mpr
  rw [sortYValPairs_eq_map]
  exact List.mem_map.mpr ⟨p, h, rfl⟩

/-- The dump of the merged config-map document splits at the ramen key line:
the line `pad 2 ++ ramenKey ++ ":"` is followed exactly by the re-serialized
lines of the merged manager config at indentation 4. -/
theorem yamlDumpLines_commitDoc_split (cm : RamenConfigMap)
    (inner dco : List (String × YVal))
    (hdco : lookupY inner "drClusterOperator" = some (.map dco)) :
    ∃ pre post,
      yamlDumpLines (commitDoc cm inner dco)
        = pre ++ (pad 2 ++ ramenKey ++ ":")
            :: (renderEntries 4 (sortPairs (sortYValPairs (innerUpdated inner dco)))
                ++ post) := by
  have hfind : (inner.find? (fun p => p.1 = "drClusterOperator")).isSome = true := by
    unfold lookupY at hdco
    cases hf : inner.find? (fun p => p.1 = "drClusterOperator") with
    | none => rw [hf] at hdco; simp at hdco
    | some q => simp
  have hmemInner : ("drClusterOperator",
      YVal.map (setKeyY dco "deploymentAutomationEnabled" (.bool true)))
      ∈ innerUpdated inner dco :=
    mem_setKeyY_of_found _ _ _ hfind
  have hmemInnerSorted := mem_sortPairs_sortYValPairs hmemInner
  dsimp only at hmemInnerSorted
  obtain ⟨i0, irest, hi⟩ :=
    List.exists_cons_of_ne_nil (List.ne_nil_of_mem hmemInnerSorted)
  have hnotmem := not_mem_keys_removeKeyY cm.dataFields ramenKey
  have hdata : setKeyY (removeKeyY cm.dataFields ramenKey) ramenKey
        (.map (innerUpdated inner dco))
      = removeKeyY cm.dataFields ramenKey
        ++ [(ramenKey, .map (innerUpdated inner dco))] :=
    setKeyY_of_not_mem_keys _ _ _ hnotmem
  have hmemData : (ramenKey, YVal.map (innerUpdated inner dco))
      ∈ setKeyY (removeKeyY cm.dataFields ramenKey) ramenKey
          (.map (innerUpdated inner dco)) := by
    rw [hdata]
    exact List.mem_append_right _ (List.mem_singleton.mpr rfl)
  have hmemDataSorted := mem_sortPairs_sortYValPairs hmemData
  dsimp only at hmemDataSorted
  obtain ⟨d1, d2, hd⟩ := List.append_of_mem hmemDataSorted
  have hmemDoc : ("data", YVal.map (setKeyY (removeKeyY cm.dataFields ramenKey)
      ramenKey (.map (innerUpdated inner dco)))) ∈ commitDoc cm inner dco := by
    unfold commitDoc
    exact List.mem_append_right _ (List.mem_cons_self _ _)
  have hmemDocSorted := mem_sortPairs_sortYValPairs hmemDoc
  dsimp only at hmemDocSorted
  obtain ⟨u, v, hu⟩ := List.append_of_mem hmemDocSorted
  refine ⟨renderEntries 0 u ++ ((pad 0 ++ "data" ++ ":") :: renderEntries 2 d1),
          renderEntries 2 d2 ++ renderEntries 0 v, ?_⟩
  unfold yamlDumpLines
  rw [hu, renderEntries_append]
  have hsortData : sortYVal (YVal.map (setKeyY (removeKeyY cm.dataFields ramenKey)
      ramenKey (.map (innerUpdated inner dco))))
      = .map (d1 ++ (ramenKey, sortYVal (.map (innerUpdated inner dco))) :: d2) := by
    rw [sortYVal_map, hd]
  rw [show (("data" : String), sortYVal (YVal.map (setKeyY
      (removeKeyY cm.dataFields ramenKey) ramenKey (.map (innerUpdated inner dco)))))
      = ("data", YVal.map (d1 ++ (ramenKey, sortYVal (.map (innerUpdated inner dco)))
          :: d2)) from by rw [hsortData]]
  rw [renderEntries_cons, renderEntry_map_ne_nil 0 "data" _ (by simp)]
  rw [renderEntries_append, renderEntries_cons]
  have hsortInner : sortYVal (YVal.map (innerUpdated inner dco))
      = .map (i0 :: irest) := by
    rw [sortYVal_map, hi]
  rw [hsortInner, renderEntry_map_ne_nil 2 ramenKey _ (by simp), ← hi]
  simp [List.append_assoc]

theorem strContains_false_not_infix (l p : String)
    (h : strContains l p = false) : ¬ (p.toList <:+: l.toList) := by
  unfold strContains at h
  exact decide_eq_false_iff_not.mp h

/-- C8: for every input config map, in any key ordering, whose data holds the
ramen manager-config key as an embedded YAML document (parsed as `inner` with
a `drClusterOperator` mapping `dco`), and in which the serialized text
mentions `ramen_manager_config.yaml:` only on the key's own line and that line
appears exactly once, `update_config_map_commit` re-serializes the document
with that key rendered in literal block-scalar form — the key line gains
exactly the `|` marker, every other line is byte-identical to the plain dump,
and the block under the key is exactly the re-serialization of the original
embedded document with only the `deploymentAutomationEnabled` flag merged into
`drClusterOperator`. -/
theorem update_config_map_commit_block (cm : RamenConfigMap)
    (inner dco : List (String × YVal))
    (hdco : lookupY inner "drClusterOperator" = some (.map dco))
    (hno : ∀ l ∈ yamlDumpLines (commitDoc cm inner dco),
        strContains l (ramenKey ++ ":") = true → l = pad 2 ++ ramenKey ++ ":")
    (honce : (yamlDumpLines (commitDoc cm inner dco)).count
        (pad 2 ++ ramenKey ++ ":") = 1) :
    ∃ pre post,
      yamlDumpLines (commitDoc cm inner dco)
        = pre ++ (pad 2 ++ ramenKey ++ ":")
            :: (renderEntries 4 (sortPairs (sortYValPairs (innerUpdated inner dco)))
                ++ post)
      ∧ update_config_map_commit cm inner
        = some (joinLinesChars
            ((pre ++ (pad 2 ++ ramenKey ++ ": |")
                :: (renderEntries 4 (sortPairs (sortYValPairs (innerUpdated inner dco)))
                    ++ post)).map String.toList)) := by
  have hpne : (ramenKey ++ ":").toList ≠ [] := by decide
  have hpnl : Char.ofNat 10 ∉ (ramenKey ++ ":").toList := by decide
  obtain ⟨pre, post, hsplit⟩ := yamlDumpLines_commitDoc_split cm inner dco hdco
  refine ⟨pre, post, hsplit, ?_⟩
  have hcount := honce
  rw [hsplit, List.count_append, List.count_cons_self, List.count_append] at hcount
  have hpre0 : (pad 2 ++ ramenKey ++ ":") ∉ pre :=
    List.count_eq_zero.mp (by omega)
  have hblk0 : (pad 2 ++ ramenKey ++ ":")
      ∉ renderEntries 4 (sortPairs (sortYValPairs (innerUpdated inner dco))) :=
    List.count_eq_zero.mp (by omega)
  have hpost0 : (pad 2 ++ ramenKey ++ ":") ∉ post :=
    List.count_eq_zero.mp (by omega)
  have hline : ∀ l ∈ yamlDumpLines (commitDoc cm inner dco),
      l ≠ pad 2 ++ ramenKey ++ ":" →
      replaceAll (ramenKey ++ ":").toList (ramenKey ++ ": |").toList l.toList
        = l.toList := by
    intro l hl hne
    apply replaceAll_of_not_infix
    apply strContains_false_not_infix
    cases hc : strContains l (ramenKey ++ ":") with
    | false => rfl
    | true => exact absurd (hno l hl hc) hne
  have hrl : replaceAll (ramenKey ++ ":").toList (ramenKey ++ ": |").toList
      (pad 2 ++ ramenKey ++ ":").toList = (pad 2 ++ ramenKey ++ ": |").toList := by
    decide
  have e1 : List.map (replaceAll (ramenKey ++ ":").toList (ramenKey ++ ": |").toList
        ∘ String.toList) pre = List.map String.toList pre :=
    List.map_congr_left (fun l hl =>
      hline l (by rw [hsplit]; exact List.mem_append_left _ hl)
        (fun hc => hpre0 (hc ▸ hl)))
  have e2 : List.map (replaceAll (ramenKey ++ ":").toList (ramenKey ++ ": |").toList
        ∘ String.toList)
        (renderEntries 4 (sortPairs (sortYValPairs (innerUpdated inner dco))))
      = List.map String.toList
          (renderEntries 4 (sortPairs (sortYValPairs (innerUpdated inner dco)))) :=
    List.map_congr_left (fun l hl =>
      hline l (by
          rw [hsplit]
          exact List.mem_append_right _
            (List.mem_cons_of_mem _ (List.mem_append_left _ hl)))
        (fun hc => hblk0 (hc ▸ hl)))
  have e3 : List.map (replaceAll (ramenKey ++ ":").toList (ramenKey ++ ": |").toList
        ∘ String.toList) post = List.map String.toList post :=
    List.map_congr_left (fun l hl =>
      hline l (by
          rw [hsplit]
          exact List.mem_append_right _
            (List.mem_cons_of_mem _ (List.mem_append_right _ hl)))
        (fun hc => hpost0 (hc ▸ hl)))
  simp only [update_config_map_commit, hdco]
  congr 1
  rw [replaceAll_joinLines _ _ hpne hpnl, List.map_map]
  rw [hsplit]
  simp only [List.map_append, List.map_cons, Function.comp_apply]
  rw [e1, e2, e3, hrl]

theorem update_config_map_commit_block_witness :
    ∃ pre post,
      yamlDumpLines (commitDoc
          ⟨[("apiVersion", .str "v1"), ("kind", .str "ConfigMap")],
           [(ramenKey, .str "drClusterOperator: x")],
           [("name", .str "ramen-hub-operator-config"), ("annotations", .str "k8s")]⟩
          [("drClusterOperator", .map [("deploymentAutomationEnabled", .bool false)]),
           ("s3StoreProfiles", .str "profiles")]
          [("deploymentAutomationEnabled", .bool false)])
        = pre ++ (pad 2 ++ ramenKey ++ ":")
            :: (renderEntries 4 (sortPairs (sortYValPairs (innerUpdated
                  [("drClusterOperator", .map [("deploymentAutomationEnabled", .bool false)]),
                   ("s3StoreProfiles", .str "profiles")]
                  [("deploymentAutomationEnabled", .bool false)])))
                ++ post)
      ∧ update_config_map_commit
          ⟨[("apiVersion", .str "v1"), ("kind", .str "ConfigMap")],
           [(ramenKey, .str "drClusterOperator: x")],
           [("name", .str "ramen-hub-operator-config"), ("annotations", .str "k8s")]⟩
          [("drClusterOperator", .map [("deploymentAutomationEnabled", .bool false)]),
           ("s3StoreProfiles", .str "profiles")]
        = some (joinLinesChars
            ((pre ++ (pad 2 ++ ramenKey ++ ": |")
                :: (renderEntries 4 (sortPairs (sortYValPairs (innerUpdated
                      [("drClusterOperator", .map [("deploymentAutomationEnabled", .bool false)]),
                       ("s3StoreProfiles", .str "profiles")]
                      [("deploymentAutomationEnabled", .bool false)])))
                    ++ post)).map String.toList)) :=
  update_config_map_commit_block _ _ _ rfl (by decide) (by decide)

end OcsCI
